import Mathlib

/-!
# objserv_exporter: the command `cmd/objserv_exporter/main.go`

A shallow embedding of the exporter's entry point: the `/healthz` handler, the
`LogFunc` adapter, the build-information `init`, and `main` itself (environment
override, flag parsing, handler registration, listening).  Library calls the
file makes (`net/http`, `flag`, `prometheus/common/version`, `glog`) are
modelled only as far as `main.go` uses them.  Strings are sequences of
characters; Go's byte-wise tests in the flag parser look only at the ASCII
characters `-` and `=`, where the two views agree.

The collection engine that `main` starts is in the exporter package; its
model, in the last part of the definitions, follows the written
specification.
-/

namespace ObjservExporter

/-! ## net/http: the response writer and `http.Error` -/

/-- An incoming HTTP request, as far as a handler can observe it. -/
structure Request where
  method : String
  path : String
  header : List (String × String)
  body : String
deriving DecidableEq, Repr

/-- The `http.ResponseWriter` the server hands to a handler (`*http.response`):
the method of the request it answers, the header map, the status passed to
`WriteHeader` (none while unwritten), the number of body bytes the handler
has written, and the body bytes that go out on the connection. -/
structure ResponseWriter where
  reqMethod : String
  header : List (String × String)
  status : Option Nat
  written : Nat
  body : String
deriving DecidableEq, Repr

/-- The writer the server makes for a request. -/
def ResponseWriter.fresh (r : Request) : ResponseWriter :=
  { reqMethod := r.method, header := [], status := none, written := 0, body := "" }

/-- `Header.Del`: remove every entry stored under the key. -/
def headerDel (h : List (String × String)) (k : String) : List (String × String) :=
  h.filter (fun kv => kv.1 != k)

/-- `Header.Set`: replace whatever is stored under the key by the one value. -/
def headerSet (h : List (String × String)) (k v : String) : List (String × String) :=
  headerDel h k ++ [(k, v)]

/-- `ResponseWriter.WriteHeader`: the first call fixes the status, later calls
are ignored by the server. -/
def ResponseWriter.WriteHeader (w : ResponseWriter) (code : Nat) : ResponseWriter :=
  match w.status with
  | none => { w with status := some code }
  | some _ => w

/-- `bodyAllowedForStatus`: no body with 1xx, 204 and 304. -/
def bodyAllowedForStatus (status : Nat) : Bool :=
  if 100 ≤ status ∧ status ≤ 199 then false
  else if status = 204 then false
  else if status = 304 then false
  else true

/-- `ResponseWriter.Write` of the server's writer: an unwritten status becomes
200; an empty write and a write under a status without body do nothing more;
otherwise the bytes are counted in `written`, and they go out as body unless
the request method is `HEAD`, for which the server eats the writes. -/
def ResponseWriter.Write (w : ResponseWriter) (s : String) : ResponseWriter :=
  let w1 := match w.status with
    | none => { w with status := some 200 }
    | some _ => w
  if s.utf8ByteSize = 0 then w1
  else if bodyAllowedForStatus (w1.status.getD 200) = false then w1
  else if w1.reqMethod = "HEAD" then { w1 with written := w1.written + s.utf8ByteSize }
  else { w1 with written := w1.written + s.utf8ByteSize, body := w1.body ++ s }

/-- The response as the client gets it once the handler has returned: status
line, headers, the content length the server derives from the bytes written,
and the body. -/
structure Response where
  status : Nat
  header : List (String × String)
  contentLength : Nat
  body : String
deriving DecidableEq, Repr

/-- The response a finished writer stands for; a handler that never wrote a
status has answered 200. -/
def ResponseWriter.response (w : ResponseWriter) : Response :=
  { status := w.status.getD 200
    header := w.header
    contentLength := w.written
    body := w.body }

/-- `http.StatusOK`. -/
def StatusOK : Nat := 200

/-- `http.Error(w, error, code)`: plain-text content type, `nosniff`, the status
line, then `fmt.Fprintln(w, error)`, that is the message and a newline. -/
def httpError (w : ResponseWriter) (error : String) (code : Nat) : ResponseWriter :=
  let h1 := headerDel w.header "Content-Length"
  let h2 := headerSet h1 "Content-Type" "text/plain; charset=utf-8"
  let h3 := headerSet h2 "X-Content-Type-Options" "nosniff"
  let w1 := { w with header := h3 }
  let w2 := w1.WriteHeader code
  w2.Write (error ++ "\n")

/-- The closure registered for `/healthz` (main.go line 85):
`func(w, r) { http.Error(w, "OK", http.StatusOK) }`.  The model passes the
exporter and the ObjectServer explicitly, as anything the closure could have
read, on top of the request. -/
def healthzHandler {ε σ : Type} (_exporter : ε) (_objectServer : σ)
    (w : ResponseWriter) (_r : Request) : ResponseWriter :=
  httpError w "OK" StatusOK

/-- The server answering a request routed to `/healthz`: a writer for the
request, the handler, the response. -/
def serveHealthz {ε σ : Type} (exporter : ε) (objectServer : σ) (r : Request) : Response :=
  (healthzHandler exporter objectServer (ResponseWriter.fresh r) r).response

/-! ## The `LogFunc` adapter -/

/-- A Go value of type `interface{}`, as far as an argument list needs it:
a few scalars and the slice `[]interface{}`. -/
inductive GoValue where
  | str (s : String)
  | int (n : Int)
  | bool (b : Bool)
  | null
  | slice (xs : List GoValue)

/-- `type LogFunc func(args ...interface{})`.  Inside the function the variadic
parameter is the slice of the arguments it was called with; what the function
does is a change of some state `σ`. -/
abbrev LogFunc (σ : Type) : Type := List GoValue → σ → σ

/-- `func (log LogFunc) Println(args ...interface{}) { log(args) }` (main.go
lines 101-103).  The call is `log(args)`, not `log(args...)`: the slice `args` is
one value of type `interface{}`, so `log` gets the one-element argument list
holding that slice. -/
def LogFunc.Println {σ : Type} (log : LogFunc σ) (args : List GoValue) : σ → σ :=
  log [GoValue.slice args]

/-- A function that records every call made to it: the state is the list of
the argument lists it has received, oldest first. -/
def recordCall : LogFunc (List (List GoValue)) :=
  fun args calls => calls ++ [args]

/-! ## Build information (`init`) -/

/-- The package variables of main.go lines 26-41. -/
structure BuildVars where
  Branch : String
  BuildUser : String
  BuildDate : String
  Revision : String
  Version : String
  VersionShort : String
deriving DecidableEq, Repr

/-- The initial values in the source.  `BuildDate` is
`time.Now().Format(time.RFC3339)`, evaluated once when the package variables
are initialised, that is when the process starts (the comment above it in the
source speaks of the build time); the formatted start time is the
parameter. -/
def sourceBuildVars (startTime : String) : BuildVars :=
  { Branch := "master"
    BuildUser := "d107684"
    BuildDate := startTime
    Revision := "2"
    Version := "0.5.3"
    VersionShort := "0.5.3" }

/-- The variables of the package `prometheus/common/version`: the five that
`init` assigns, and `GoVersion`, which the package sets itself from
`runtime.Version()`. -/
structure VersionPkg where
  Version : String
  Revision : String
  Branch : String
  BuildUser : String
  BuildDate : String
  GoVersion : String
deriving DecidableEq, Repr

/-- What `version.NewCollector(program)` builds: the gauge
`<program>_build_info` with the constant value 1 and constant labels. -/
structure BuildInfoCollector where
  program : String
  constLabels : List (String × String)
deriving DecidableEq, Repr

/-- `version.NewCollector`: the labels are `version`, `revision`, `branch` and
`goversion`, read from the package variables when the collector is made.
`BuildUser` and `BuildDate` are not among them; the package shows those only
in the text of `version.Print` and `version.BuildContext`. -/
def NewCollector (pkg : VersionPkg) (program : String) : BuildInfoCollector :=
  { program := program
    constLabels :=
      [("version", pkg.Version), ("revision", pkg.Revision), ("branch", pkg.Branch),
       ("goversion", pkg.GoVersion)] }

/-- The state `init` works on: the `version` package and the default
Prometheus registry. -/
structure InitState where
  version : VersionPkg
  registry : List BuildInfoCollector
deriving DecidableEq, Repr

/-- `func init()` (main.go lines 43-52): five assignments, then
`prometheus.MustRegister(version.NewCollector("obj_exporter"))`. -/
def init (vars : BuildVars) (s : InitState) : InitState :=
  let v1 := { s.version with Branch := vars.Branch }
  let v2 := { v1 with BuildUser := vars.BuildUser }
  let v3 := { v2 with BuildDate := vars.BuildDate }
  let v4 := { v3 with Revision := vars.Revision }
  let v5 := { v4 with Version := vars.VersionShort }
  { version := v5, registry := s.registry ++ [NewCollector v5 "obj_exporter"] }

/-! ## Package `flag`: the command line -/

/-- The flag variables of main.go lines 19-24 together with the record of the
flags the command line has set.  `actual` is the parser's `f.actual`, kept here
as the history of the `Value.Set` calls made while parsing: flag name and the
text given for it, oldest first (the library keeps the names only). -/
structure FlagSet where
  showVersion : Bool
  listenAddress : String
  metricsPath : String
  configFile : String
  actual : List (String × String)
deriving DecidableEq, Repr

/-- The defaults declared with `flag.Bool` and `flag.String`. -/
def flagDefaults : FlagSet :=
  { showVersion := false
    listenAddress := ":9399"
    metricsPath := "/metrics"
    configFile := "objserv_exporter.yml"
    actual := [] }

/-- A flag that an imported package registered on the same command line
(`glog` adds several): whether it is a boolean flag and which values its `Set`
accepts.  Such flags never touch the variables of `main.go`. -/
structure ForeignFlag where
  isBool : Bool
  accepts : String → Bool

/-- The entry found in `f.formal` for a flag name. -/
inductive Formal where
  | version
  | listenAddress
  | metricsPath
  | configFile
  | foreign (f : ForeignFlag)

/-- The lookup `f.formal[name]`: the four flags of `main.go`, then whatever
the imported packages registered. -/
def lookupFormal (foreign : String → Option ForeignFlag) (name : String) : Option Formal :=
  if name = "version" then some Formal.version
  else if name = "web.listen-address" then some Formal.listenAddress
  else if name = "web.metrics-path" then some Formal.metricsPath
  else if name = "config.file" then some Formal.configFile
  else (foreign name).map Formal.foreign

/-- `strconv.ParseBool`, which a boolean flag uses for its value. -/
def ParseBool (s : String) : Option Bool :=
  if s ∈ ["1", "t", "T", "TRUE", "true", "True"] then some true
  else if s ∈ ["0", "f", "F", "FALSE", "false", "False"] then some false
  else none

/-- The errors of `parseOne`; `help` is `flag.ErrHelp`. -/
inductive ParseError where
  | badSyntax (arg : String)
  | notDefined (name : String)
  | help
  | invalidBool (value name : String)
  | needsArgument (name : String)
  | invalidValue (value name : String)
deriving DecidableEq, Repr

/-- The three ways `parseOne` returns: `(false, nil)` with the arguments left
over, `(true, nil)` after one flag, or an error. -/
inductive ParseStep where
  | stop (fs : FlagSet) (rest : List String)
  | next (fs : FlagSet) (rest : List String)
  | fail (e : ParseError)

/-- The loop of `parseOne` that looks for the first `=` from index 1 on: the
name before it and, when there is one, the value after it. -/
def splitEquals : List Char → List Char × Option (List Char)
  | [] => ([], none)
  | c :: cs =>
    if c = '=' then ([], some cs)
    else ((c :: (splitEquals cs).1), (splitEquals cs).2)

/-- The assignment a successful `Set` makes, and its entry in `actual`. -/
def setFlag (fs : FlagSet) (f : Formal) (name value : String) : Option FlagSet :=
  match f with
  | Formal.version =>
    match ParseBool value with
    | some b => some { fs with showVersion := b, actual := fs.actual ++ [(name, value)] }
    | none => none
  | Formal.listenAddress =>
    some { fs with listenAddress := value, actual := fs.actual ++ [(name, value)] }
  | Formal.metricsPath =>
    some { fs with metricsPath := value, actual := fs.actual ++ [(name, value)] }
  | Formal.configFile =>
    some { fs with configFile := value, actual := fs.actual ++ [(name, value)] }
  | Formal.foreign g =>
    if g.accepts value then some { fs with actual := fs.actual ++ [(name, value)] }
    else none

/-- Whether the flag is a boolean flag (`IsBoolFlag`), which takes no separate
value argument. -/
def Formal.isBool : Formal → Bool
  | Formal.version => true
  | Formal.foreign g => g.isBool
  | _ => false

/-- `(*FlagSet).parseOne` of the Go standard library, over the flags of this
program.  An argument shorter than two characters or not starting with `-`
ends the flags, as does `--`; one or two dashes introduce a name, `name=value`
carries the value, a boolean flag without `=` is set to true, any other flag
takes the next argument as its value. -/
def parseOne (foreign : String → Option ForeignFlag) (fs : FlagSet) (args : List String) :
    ParseStep :=
  match args with
  | [] => ParseStep.stop fs []
  | s :: rest =>
    match s.data with
    | c0 :: c1 :: cs =>
      if c0 ≠ '-' then ParseStep.stop fs (s :: rest)
      else if c1 = '-' ∧ cs = [] then ParseStep.stop fs rest
      else
        let full : List Char := if c1 = '-' then cs else c1 :: cs
        match full with
        | [] => ParseStep.fail (ParseError.badSyntax s)
        | n0 :: ns =>
          if n0 = '-' ∨ n0 = '=' then ParseStep.fail (ParseError.badSyntax s)
          else
            let name : String := String.mk (n0 :: (splitEquals ns).1)
            let given : Option String := (splitEquals ns).2.map String.mk
            match lookupFormal foreign name with
            | none =>
              if name = "help" ∨ name = "h" then ParseStep.fail ParseError.help
              else ParseStep.fail (ParseError.notDefined name)
            | some f =>
              if f.isBool then
                match given with
                | some value =>
                  match setFlag fs f name value with
                  | some fs1 => ParseStep.next fs1 rest
                  | none => ParseStep.fail (ParseError.invalidBool value name)
                | none =>
                  match setFlag fs f name "true" with
                  | some fs1 => ParseStep.next fs1 rest
                  | none => ParseStep.fail (ParseError.invalidBool "true" name)
              else
                match given, rest with
                | some value, _ =>
                  match setFlag fs f name value with
                  | some fs1 => ParseStep.next fs1 rest
                  | none => ParseStep.fail (ParseError.invalidValue value name)
                | none, value :: rest1 =>
                  match setFlag fs f name value with
                  | some fs1 => ParseStep.next fs1 rest1
                  | none => ParseStep.fail (ParseError.invalidValue value name)
                | none, [] => ParseStep.fail (ParseError.needsArgument name)
    | _ => ParseStep.stop fs (s :: rest)

/-- The loop of `(*FlagSet).Parse`: `parseOne` until it stops or fails.  Every
successful step consumes an argument, so a bound above the number of
arguments is never exhausted. -/
def parseLoop (foreign : String → Option ForeignFlag) :
    Nat → FlagSet → List String → Except ParseError FlagSet
  | 0, fs, _ => Except.ok fs
  | n + 1, fs, args =>
    match parseOne foreign fs args with
    | ParseStep.stop fs1 _ => Except.ok fs1
    | ParseStep.next fs1 rest => parseLoop foreign n fs1 rest
    | ParseStep.fail e => Except.error e

/-- `flag.Parse()`: the loop over `os.Args[1:]`. -/
def Parse (foreign : String → Option ForeignFlag) (fs : FlagSet) (args : List String) :
    Except ParseError FlagSet :=
  parseLoop foreign (args.length + 1) fs args

/-- The value the command line gave last for a flag, if it gave one. -/
def lastSet (name : String) (actual : List (String × String)) : Option String :=
  ((actual.filter (fun kv => kv.1 = name)).getLast?).map Prod.snd

/-! ## `main` -/

/-- The handlers `main` registers.  `HomeHandlerFunc`, `ConfigHandlerFunc` and
`ExporterHandlerFor` live in other files of the package; here they are the
names of the handlers they return, with the arguments they were given. -/
inductive Handler (ε : Type) where
  | healthz
  | home (metricsPath : String)
  | config (metricsPath : String) (exporter : ε)
  | exporter (exporter : ε)
  | promhttp
  | pprof
  | expvar
deriving DecidableEq, Repr

/-- `http.DefaultServeMux`: the registered patterns with their handlers, in
registration order. -/
abbrev ServeMux (ε : Type) : Type := List (String × Handler ε)

/-- `(*ServeMux).Handle` with the exact-match rule of the classic mux: it panics
on the empty pattern and on a pattern that already has a handler, and
registers the handler otherwise. -/
def ServeMux.Handle {ε : Type} (mux : ServeMux ε) (pattern : String) (h : Handler ε) :
    Except String (ServeMux ε) :=
  if pattern = "" then Except.error "http: invalid pattern"
  else if pattern ∈ mux.map Prod.fst then
    Except.error ("http: multiple registrations for " ++ pattern)
  else Except.ok (mux ++ [(pattern, h)])

/-- The patterns the blank import of `net/http/pprof` registers in its `init`. -/
def pprofPatterns : List String :=
  ["/debug/pprof/", "/debug/pprof/cmdline", "/debug/pprof/profile",
   "/debug/pprof/symbol", "/debug/pprof/trace"]

/-- A default mux as `main` finds it: the patterns of `net/http/pprof` and the
`/debug/vars` of `expvar`, which the Prometheus client imports.  Which
patterns the imports have registered is not decided in `main.go`; the
statements about registration take the mux at entry as a parameter, and this
one serves for the sample runs. -/
def initialMux (ε : Type) : ServeMux ε :=
  pprofPatterns.map (fun p => (p, Handler.pprof)) ++ [("/debug/vars", Handler.expvar)]

/-- The four patterns `main` registers whatever the flags are. -/
def fixedPatterns : List String :=
  ["/healthz", "/", "/config", "/objserv_exporter_metrics"]

/-- The metrics path collides with nothing: it is not empty, not one of the
four fixed patterns, and not yet in the mux. -/
def metricsPathFree {ε : Type} (mux : ServeMux ε) (p : String) : Prop :=
  p ≠ "" ∧ p ∉ fixedPatterns ∧ p ∉ mux.map Prod.fst

/-- What `main` does that the outside can see, in order. -/
inductive Event (ε : Type) where
  | setBlockProfileRate (rate : Nat)
  | setMutexProfileFraction (rate : Nat)
  | flagValueSet (name value : String)
  | flagExit (e : ParseError)
  | println (s : String)
  | exit (code : Nat)
  | infof (msg : String)
  | fatalf (msg : String)
  | newExporter (configFile : String)
  | handle (pattern : String) (h : Handler ε)
  | panic (msg : String)
  | listenAndServe (addr : String) (mux : ServeMux ε)
deriving DecidableEq, Repr

/-- The texts the `version` package produces for `main`. -/
structure VersionText where
  print : String → String
  info : String
  buildContext : String

/-- One `http.Handle` call of `main`: the registration is recorded and the mux
grows, or the call panics and `main` ends there. -/
def handleStep {ε : Type} (st : List (Event ε) × ServeMux ε) (pattern : String)
    (h : Handler ε) : Except (List (Event ε)) (List (Event ε) × ServeMux ε) :=
  match ServeMux.Handle st.2 pattern h with
  | Except.ok mux1 => Except.ok (st.1 ++ [Event.handle pattern h], mux1)
  | Except.error msg => Except.error (st.1 ++ [Event.panic msg])

/-- A run of `http.Handle` calls, one after the other; the first panic ends
it. -/
def handleAll {ε : Type} :
    List (Event ε) × ServeMux ε → List (String × Handler ε) →
      Except (List (Event ε)) (List (Event ε) × ServeMux ε)
  | st, [] => Except.ok st
  | st, r :: rest =>
    match handleStep st r.1 r.2 with
    | Except.ok st1 => handleAll st1 rest
    | Except.error t => Except.error t

/-- The five registrations of lines 85-90, in source order. -/
def mainRegistrations {ε : Type} (fs : FlagSet) (exporter : ε) : List (String × Handler ε) :=
  [("/healthz", Handler.healthz),
   ("/", Handler.home fs.metricsPath),
   ("/config", Handler.config fs.metricsPath exporter),
   (fs.metricsPath, Handler.exporter exporter),
   ("/objserv_exporter_metrics", Handler.promhttp)]

/-- Lines 84-93 of `main`: the five registrations, then
`http.ListenAndServe(*listenAddress, nil)` on the default mux. -/
def serve {ε : Type} (fs : FlagSet) (exporter : ε) (trace : List (Event ε))
    (mux : ServeMux ε) : List (Event ε) :=
  match handleAll (trace, mux) (mainRegistrations fs exporter) with
  | Except.ok s5 =>
    s5.1 ++ [Event.infof ("Listening on " ++ fs.listenAddress),
             Event.listenAndServe fs.listenAddress s5.2]
  | Except.error t => t

/-- Lines 65-69 of `main`: a non-empty `CONFIG` replaces the value of the
`config.file` flag before the command line is parsed. -/
def envOverride (env : String → String) (fs : FlagSet) : FlagSet :=
  if env "CONFIG" ≠ "" then { fs with configFile := env "CONFIG" } else fs

/-- Lines 55-64 of `main`: profiling rates when `DEBUG` is non-empty, and the
`alsologtostderr` flag, when some package registered it, set to "true". -/
def preamble {ε : Type} (foreign : String → Option ForeignFlag) (env : String → String) :
    List (Event ε) :=
  let t0 : List (Event ε) :=
    if env "DEBUG" ≠ "" then [Event.setBlockProfileRate 1, Event.setMutexProfileFraction 1]
    else []
  match foreign "alsologtostderr" with
  | some _ => t0 ++ [Event.flagValueSet "alsologtostderr" "true"]
  | none => t0

/-- `func main()`.  `env` is `os.Getenv`, `args` is `os.Args[1:]`, `foreign`
the flags of imported packages, `NewExporter` the constructor of the exporter
package, `mux` the default mux at entry.  The result is the sequence of
events up to the point where the process exits, panics or starts serving. -/
def main {ε : Type} (vt : VersionText) (foreign : String → Option ForeignFlag)
    (NewExporter : String → Except String ε) (env : String → String)
    (args : List String) (mux : ServeMux ε) : List (Event ε) :=
  let t1 : List (Event ε) := preamble foreign env
  match Parse foreign (envOverride env flagDefaults) args with
  | Except.error e => t1 ++ [Event.flagExit e]
  | Except.ok fs =>
    if fs.showVersion then
      t1 ++ [Event.println (vt.print "obj_exporter"), Event.exit 0]
    else
      let t2 := t1 ++ [Event.infof ("Starting ObjectServer Exporter " ++ vt.info ++ " " ++
                        vt.buildContext),
                       Event.newExporter fs.configFile]
      match NewExporter fs.configFile with
      | Except.error err => t2 ++ [Event.fatalf ("Error creating exporter: " ++ err)]
      | Except.ok exporter => serve fs exporter t2 mux

/-- The configuration file names `NewExporter` was called with. -/
def newExporterCalls {ε : Type} (trace : List (Event ε)) : List String :=
  trace.filterMap (fun e => match e with
    | Event.newExporter n => some n
    | _ => none)

/-- The handler registrations made. -/
def registrations {ε : Type} (trace : List (Event ε)) : List (String × Handler ε) :=
  trace.filterMap (fun e => match e with
    | Event.handle p h => some (p, h)
    | _ => none)

/-- The addresses `ListenAndServe` was called with. -/
def listenCalls {ε : Type} (trace : List (Event ε)) : List String :=
  trace.filterMap (fun e => match e with
    | Event.listenAndServe a _ => some a
    | _ => none)

/-- The precedence the configuration file name is meant to follow: the value
of `-config.file` when the command line gives it, else a non-empty `CONFIG`,
else the default. -/
def configFileChoice (flag : Option String) (envConfig : String) : String :=
  match flag with
  | some v => v
  | none => if envConfig ≠ "" then envConfig else "objserv_exporter.yml"

/-- The flag variables agree with the history of the command line: each holds
the last value the command line gave for its flag, or else its value in
`init`. -/
def Tracks (init fs : FlagSet) : Prop :=
  fs.configFile = (lastSet "config.file" fs.actual).getD init.configFile ∧
  fs.metricsPath = (lastSet "web.metrics-path" fs.actual).getD init.metricsPath ∧
  fs.listenAddress = (lastSet "web.listen-address" fs.actual).getD init.listenAddress ∧
  fs.showVersion =
    (match lastSet "version" fs.actual with
     | some v => (ParseBool v).getD false
     | none => init.showVersion)

/-- Two states of the flag variables that differ at most in `configFile`. -/
def sameFlags (a b : FlagSet) : Prop :=
  a.showVersion = b.showVersion ∧ a.listenAddress = b.listenAddress ∧
  a.metricsPath = b.metricsPath ∧ a.actual = b.actual

/-- Two results of `parseOne` that agree up to `configFile`. -/
def stepSim : ParseStep → ParseStep → Prop
  | ParseStep.stop a r, ParseStep.stop b r1 => sameFlags a b ∧ r = r1
  | ParseStep.next a r, ParseStep.next b r1 => sameFlags a b ∧ r = r1
  | ParseStep.fail e, ParseStep.fail e1 => e = e1
  | _, _ => False

/-! ## The collection engine

`main` hands the exporter to `ExporterHandlerFor`; the engine behind it is in
the exporter package, outside this file.  The definitions below follow the
written specification of that engine. -/

/-- Modelled from the spec: the failure taxonomy of the collection engine
(section 7), whose code is in the exporter package. -/
inductive Failure where
  | PoolExhausted
  | ConnectFailed
  | ProtocolError
  | Timeout
  | QueryError
  | ValueCoercion
  | DuplicateSeries
deriving DecidableEq, Repr

/-- Modelled from the spec: a column value of a raw row, the tagged variant
string, number or null of section 9.  The number type `ν` stands for the
64-bit float. -/
inductive Cell (ν : Type) where
  | str (s : String)
  | num (x : ν)
  | null
deriving DecidableEq, Repr

/-- Modelled from the spec: a RawRow, an ordered sequence of column name and
value pairs (section 3). -/
abbrev RawRow (ν : Type) : Type := List (String × Cell ν)

/-- Modelled from the spec: the metric type of a QueryDefinition, counter or
gauge. -/
inductive MetricType where
  | counter
  | gauge
deriving DecidableEq, Repr

/-- Modelled from the spec: a QueryDefinition (section 3): the query text, the
metric name and type, the label columns in order, and the one value column. -/
structure QueryDefinition where
  text : String
  metricName : String
  metricType : MetricType
  labelColumns : List String
  valueColumn : String
deriving DecidableEq, Repr

/-- Modelled from the spec: a MetricSample (section 3): metric name, metric
type, label set, numeric value, timestamp of collection. -/
structure MetricSample (ν : Type) where
  name : String
  type : MetricType
  labels : List (String × String)
  value : ν
  timestamp : Nat
deriving DecidableEq, Repr

/-- Modelled from the spec: the coercions RowMapper relies on (section 4.3):
reading a number out of a string column and the stable text format of a
numeric column used as a label. -/
structure Coercion (ν : Type) where
  parse : String → Option ν
  format : ν → String

/-- Modelled from the spec: the value a raw row holds in a named column, if
the column is present. -/
def column {ν : Type} (row : RawRow ν) (name : String) : Option (Cell ν) :=
  (row.find? (fun kv => kv.1 = name)).map Prod.snd

/-- Modelled from the spec: label coercion of RowMapper (section 4.3): numeric
columns are stringified, a null or absent label value maps to the empty
string and is never dropped. -/
def coerceLabel {ν : Type} (co : Coercion ν) : Option (Cell ν) → String
  | some (Cell.str s) => s
  | some (Cell.num x) => co.format x
  | some Cell.null => ""
  | none => ""

/-- Modelled from the spec: value coercion of RowMapper (section 4.3): the
value column is coerced to a number, failing with ValueCoercion if the column
is non-numeric or null. -/
def coerceValue {ν : Type} (co : Coercion ν) : Option (Cell ν) → Except Failure ν
  | some (Cell.num x) => Except.ok x
  | some (Cell.str s) =>
    match co.parse s with
    | some x => Except.ok x
    | none => Except.error Failure.ValueCoercion
  | some Cell.null => Except.error Failure.ValueCoercion
  | none => Except.error Failure.ValueCoercion

/-- Modelled from the spec: `RowMapper.Map(RawRow, QueryDefinition)` of
section 4.3: the label columns in declared order, then the value column. -/
def RowMapper.Map {ν : Type} (co : Coercion ν) (timestamp : Nat) (row : RawRow ν)
    (qd : QueryDefinition) : Except Failure (MetricSample ν) :=
  match coerceValue co (column row qd.valueColumn) with
  | Except.error f => Except.error f
  | Except.ok v =>
    Except.ok
      { name := qd.metricName
        type := qd.metricType
        labels := qd.labelColumns.map (fun c => (c, coerceLabel co (column row c)))
        value := v
        timestamp := timestamp }

/-- Modelled from the spec: the in-stream mapping of one query's rows
(section 4.3), one result per row in row order: a row whose value does not
coerce gives ValueCoercion, a row whose label set was already seen in this
result set gives DuplicateSeries and is omitted, any other row gives its
sample. -/
def mapRows {ν : Type} (co : Coercion ν) (timestamp : Nat) (qd : QueryDefinition) :
    List (List (String × String)) → List (RawRow ν) →
      List (Except Failure (MetricSample ν))
  | _, [] => []
  | seen, row :: rest =>
    match RowMapper.Map co timestamp row qd with
    | Except.error f => Except.error f :: mapRows co timestamp qd seen rest
    | Except.ok s =>
      if s.labels ∈ seen then
        Except.error Failure.DuplicateSeries :: mapRows co timestamp qd seen rest
      else Except.ok s :: mapRows co timestamp qd (s.labels :: seen) rest

/-- Modelled from the spec: whether a row result is a failure. -/
def rowFailed {ν : Type} : Except Failure (MetricSample ν) → Bool
  | Except.error _ => true
  | Except.ok _ => false

/-- Modelled from the spec: the sample of a row result, if it has one. -/
def rowSample {ν : Type} : Except Failure (MetricSample ν) → Option (MetricSample ν)
  | Except.error _ => none
  | Except.ok s => some s

/-- Modelled from the spec: what one query contributes to a scrape: the
failure of the run itself if QueryRunner failed, the per-row results, and
whether the query is reported as failed. -/
structure QueryOutcome (ν : Type) where
  runFailure : Option Failure
  perRow : List (Except Failure (MetricSample ν))
  failed : Bool

/-- Modelled from the spec: the samples a query contributes, in row order. -/
def QueryOutcome.samples {ν : Type} (o : QueryOutcome ν) : List (MetricSample ν) :=
  o.perRow.filterMap rowSample

/-- Modelled from the spec: one query of a scrape (sections 4.2, 4.3 and 7).
A failure of the run (Timeout, ProtocolError, QueryError) fails the query.
Row-level failures reduce the sample set and do not fail the query unless
every row fails, in which case the query is reported as failed; that is the
test `all`, which a result set with no row passes too. -/
def runQuery {ν : Type} (co : Coercion ν) (timestamp : Nat) (qd : QueryDefinition)
    (run : Except Failure (List (RawRow ν))) : QueryOutcome ν :=
  match run with
  | Except.error f => { runFailure := some f, perRow := [], failed := true }
  | Except.ok rows =>
    { runFailure := none
      perRow := mapRows co timestamp qd [] rows
      failed := (mapRows co timestamp qd [] rows).all rowFailed }

/-- Modelled from the spec: a Target as the engine sees it: its name and its
configured queries. -/
structure Target where
  name : String
  queries : List QueryDefinition
deriving DecidableEq, Repr

/-- Modelled from the spec: the terminal state `Done(success|partial|failed)`
of the per-scrape state machine (section 4.4). -/
inductive ScrapeStatus where
  | success
  | partialSuccess
  | failed
deriving DecidableEq, Repr

/-- Modelled from the spec: the ScrapeResult (section 3), with the emitted
samples in emission order and the health flags of the Release calls made. -/
structure ScrapeResult (ν : Type) where
  status : ScrapeStatus
  emitted : List (MetricSample ν)
  released : List Bool
deriving Repr

/-- Modelled from the spec: the "up" meta-metric of a target (section 4.4): a
gauge named "up" under the reserved target label, 1 if the connection was
usable and 0 otherwise.  `num` turns a count into the sample's number. -/
def upSample {ν : Type} (num : Nat → ν) (target : Target) (usable : Bool)
    (timestamp : Nat) : MetricSample ν :=
  { name := "up"
    type := MetricType.gauge
    labels := [("target", target.name)]
    value := num (if usable then 1 else 0)
    timestamp := timestamp }

/-- Modelled from the spec: the "duration" meta-metric of a target (section
4.4): a gauge under the reserved target label, measured from entry to
`Done`. -/
def durationSample {ν : Type} (num : Nat → ν) (target : Target) (entry done : Nat) :
    MetricSample ν :=
  { name := "duration"
    type := MetricType.gauge
    labels := [("target", target.name)]
    value := num (done - entry)
    timestamp := entry }

/-- Modelled from the spec: the status after the queries (section 4.4): failed
if all queries failed, partial if one failed and at least one succeeded. -/
def scrapeStatus {ν : Type} (outcomes : List (QueryOutcome ν)) : ScrapeStatus :=
  if outcomes.all (fun o => !o.failed) then ScrapeStatus.success
  else if outcomes.any (fun o => !o.failed) then ScrapeStatus.partialSuccess
  else ScrapeStatus.failed

/-- Modelled from the spec: `CollectionEngine.Collect(target)` of section 4.4.
`acquire` is the result of `ConnectionManager.Acquire`, `backend` what
QueryRunner returns for each query, `entry` and `done` the clock at entry and
at `Done`.  A failed acquire is terminal `failed` and "emits only the target's
up=0 meta-sample": no query runs, and no duration sample is emitted on that
path.  Otherwise every configured query runs, a failing query does not abort
its siblings, the samples are merged in configured order, the two
meta-metrics are emitted last (section 5), and the connection is released
once, unhealthy if a ProtocolError was seen.  Deadlines and the concurrent
fan-out are left out: a query that ran out of time is a run that returned
Timeout. -/
def CollectionEngine.Collect {ν : Type} (co : Coercion ν) (num : Nat → ν) (target : Target)
    (acquire : Except Failure Unit)
    (backend : QueryDefinition → Except Failure (List (RawRow ν)))
    (entry done : Nat) : ScrapeResult ν :=
  match acquire with
  | Except.error _ =>
    { status := ScrapeStatus.failed
      emitted := [upSample num target false entry]
      released := [] }
  | Except.ok _ =>
    let outcomes := target.queries.map (fun qd => runQuery co entry qd (backend qd))
    { status := scrapeStatus outcomes
      emitted := (outcomes.map (fun o => o.samples)).flatten ++
        [upSample num target true entry, durationSample num target entry done]
      released := [!(outcomes.any (fun o => o.runFailure = some Failure.ProtocolError))] }

/-- Modelled from the spec: the number of "up" samples in an emitted sequence,
the samples whose metric name is "up". -/
def countUp {ν : Type} (l : List (MetricSample ν)) : Nat :=
  l.countP (fun s => s.name = "up")

/-- Modelled from the spec: the number of "duration" samples in an emitted
sequence, the samples whose metric name is "duration". -/
def countDuration {ν : Type} (l : List (MetricSample ν)) : Nat :=
  l.countP (fun s => s.name = "duration")

end ObjservExporter

namespace ObjservExporter

/-! ## The command line: what `parseOne` and `Parse` keep true -/

/-- Appending one entry to the history: it becomes the last value of its own
flag and leaves every other flag alone. -/
theorem lastSet_append (n m v : String) (l : List (String × String)) :
    lastSet n (l ++ [(m, v)]) = if m = n then some v else lastSet n l := by
  unfold lastSet
  by_cases h : m = n
  · simp [List.filter_append, h]
  · simp [List.filter_append, h]

/-- A successful `Set` of a flag found in `f.formal` keeps the variables in
step with the history. -/
theorem setFlag_tracks (foreign : String → Option ForeignFlag) (init fs fs1 : FlagSet)
    (f : Formal) (name value : String) (hl : lookupFormal foreign name = some f)
    (hs : setFlag fs f name value = some fs1) (ht : Tracks init fs) : Tracks init fs1 := by
  obtain ⟨h1, h2, h3, h4⟩ := ht
  unfold lookupFormal at hl
  by_cases n1 : name = "version"
  · simp only [n1, if_true, Option.some.injEq] at hl
    subst hl
    subst n1
    simp only [setFlag] at hs
    cases hb : ParseBool value with
    | none => simp [hb] at hs
    | some b =>
      simp only [hb, Option.some.injEq] at hs
      subst hs
      refine ⟨?_, ?_, ?_, ?_⟩ <;> simp [lastSet_append, hb, h1, h2, h3]
  · by_cases n2 : name = "web.listen-address"
    · rw [if_neg n1, if_pos n2] at hl
      simp only [Option.some.injEq] at hl
      subst hl
      subst n2
      simp only [setFlag, Option.some.injEq] at hs
      subst hs
      refine ⟨?_, ?_, ?_, ?_⟩ <;> simp [lastSet_append, h1, h2, h4]
    · by_cases n3 : name = "web.metrics-path"
      · rw [if_neg n1, if_neg n2, if_pos n3] at hl
        simp only [Option.some.injEq] at hl
        subst hl
        subst n3
        simp only [setFlag, Option.some.injEq] at hs
        subst hs
        refine ⟨?_, ?_, ?_, ?_⟩ <;> simp [lastSet_append, h1, h3, h4]
      · by_cases n4 : name = "config.file"
        · rw [if_neg n1, if_neg n2, if_neg n3, if_pos n4] at hl
          simp only [Option.some.injEq] at hl
          subst hl
          subst n4
          simp only [setFlag, Option.some.injEq] at hs
          subst hs
          refine ⟨?_, ?_, ?_, ?_⟩ <;> simp [lastSet_append, h2, h3, h4]
        · rw [if_neg n1, if_neg n2, if_neg n3, if_neg n4] at hl
          cases hf : foreign name with
          | none => simp [hf] at hl
          | some g =>
            simp only [hf, Option.map_some', Option.some.injEq] at hl
            subst hl
            simp only [setFlag] at hs
            by_cases ha : g.accepts value = true
            · simp only [ha, if_true, Option.some.injEq] at hs
              subst hs
              refine ⟨?_, ?_, ?_, ?_⟩ <;> simp [lastSet_append, n1, n2, n3, n4, h1, h2, h3, h4]
            · simp [ha] at hs

/-- A step of `parseOne` that saw a flag made one successful `Set` and consumed
at least one argument. -/
theorem parseOne_next (foreign : String → Option ForeignFlag) (fs fs1 : FlagSet)
    (args rest : List String) (h : parseOne foreign fs args = ParseStep.next fs1 rest) :
    (∃ f name value, lookupFormal foreign name = some f ∧ setFlag fs f name value = some fs1) ∧
      rest.length < args.length := by
  unfold parseOne at h
  split at h
  · cases h
  · split at h
    · split at h
      · cases h
      · split at h
        · cases h
        · simp only at h
          split at h
          · cases h
          · split at h
            · cases h
            · split at h
              · split at h <;> cases h
              · rename_i f hf
                split at h
                · split at h
                  · split at h
                    · rename_i hs
                      cases h
                      exact ⟨⟨_, _, _, hf, hs⟩, by simp⟩
                    · cases h
                  · split at h
                    · rename_i hs
                      cases h
                      exact ⟨⟨_, _, _, hf, hs⟩, by simp⟩
                    · cases h
                · split at h
                  · split at h
                    · rename_i hs
                      cases h
                      exact ⟨⟨_, _, _, hf, hs⟩, by simp⟩
                    · cases h
                  · split at h
                    · rename_i hs
                      cases h
                      exact ⟨⟨_, _, _, hf, hs⟩, by simp; omega⟩
                    · cases h
                  · cases h
    · cases h

/-- When `parseOne` stops it has changed no flag. -/
theorem parseOne_stop (foreign : String → Option ForeignFlag) (fs fs1 : FlagSet)
    (args rest : List String) (h : parseOne foreign fs args = ParseStep.stop fs1 rest) :
    fs1 = fs := by
  unfold parseOne at h
  split at h
  · cases h; rfl
  · split at h
    · split at h
      · cases h; rfl
      · split at h
        · cases h; rfl
        · simp only at h
          split at h
          · cases h
          · split at h
            · cases h
            · split at h
              · split at h <;> cases h
              · split at h
                · split at h
                  · split at h <;> cases h
                  · split at h <;> cases h
                · split at h
                  · split at h <;> cases h
                  · split at h <;> cases h
                  · cases h
    · cases h; rfl

/-- The loop keeps the variables in step with the history. -/
theorem parseLoop_tracks (foreign : String → Option ForeignFlag) (init : FlagSet) :
    ∀ (n : Nat) (fs fs1 : FlagSet) (args : List String),
      parseLoop foreign n fs args = Except.ok fs1 → Tracks init fs → Tracks init fs1 := by
  intro n
  induction n with
  | zero =>
    intro fs fs1 args h ht
    simp only [parseLoop, Except.ok.injEq] at h
    exact h ▸ ht
  | succ n ih =>
    intro fs fs1 args h ht
    simp only [parseLoop] at h
    split at h
    · rename_i fs2 rest hp
      simp only [Except.ok.injEq] at h
      have := parseOne_stop foreign fs fs2 args rest hp
      subst this
      exact h ▸ ht
    · rename_i fs2 rest hp
      obtain ⟨⟨f, name, value, hl, hs⟩, _⟩ := parseOne_next foreign fs fs2 args rest hp
      exact ih fs2 fs1 rest h (setFlag_tracks foreign init fs fs2 f name value hl hs ht)
    · cases h

/-- The bound of the loop is never the reason it ends: any two bounds above
the number of arguments give the same result. -/
theorem parseLoop_fuel (foreign : String → Option ForeignFlag) :
    ∀ (n m : Nat) (fs : FlagSet) (args : List String),
      args.length < n → args.length < m →
      parseLoop foreign n fs args = parseLoop foreign m fs args := by
  intro n
  induction n with
  | zero => intro m fs args h; omega
  | succ n ih =>
    intro m fs args hn hm
    cases m with
    | zero => omega
    | succ m =>
      simp only [parseLoop]
      cases hp : parseOne foreign fs args with
      | stop fs2 rest => rfl
      | fail e => rfl
      | next fs2 rest =>
        have hlen := (parseOne_next foreign fs fs2 args rest hp).2
        exact ih m fs2 rest (by omega) (by omega)

/-- After `Parse`, started with an empty history, every flag variable holds
the last value the command line gave for it, or else its initial value. -/
theorem Parse_tracks (foreign : String → Option ForeignFlag) (fs0 fs : FlagSet)
    (args : List String) (h0 : fs0.actual = [])
    (h : Parse foreign fs0 args = Except.ok fs) : Tracks fs0 fs := by
  apply parseLoop_tracks foreign fs0 _ fs0 fs args h
  simp [Tracks, h0, lastSet]

/-- A `Set` does the same to two states that differ at most in `configFile`. -/
theorem setFlag_sim (a b : FlagSet) (f : Formal) (n v : String) (h : sameFlags a b) :
    (∃ a1 b1, setFlag a f n v = some a1 ∧ setFlag b f n v = some b1 ∧ sameFlags a1 b1) ∨
    (setFlag a f n v = none ∧ setFlag b f n v = none) := by
  obtain ⟨h1, h2, h3, h4⟩ := h
  cases f with
  | version =>
    simp only [setFlag]
    cases ParseBool v with
    | none => right; exact ⟨rfl, rfl⟩
    | some x => left; exact ⟨_, _, rfl, rfl, by simp [sameFlags, h2, h3, h4]⟩
  | listenAddress => left; exact ⟨_, _, rfl, rfl, by simp [sameFlags, h1, h3, h4]⟩
  | metricsPath => left; exact ⟨_, _, rfl, rfl, by simp [sameFlags, h1, h2, h4]⟩
  | configFile => left; exact ⟨_, _, rfl, rfl, by simp [sameFlags, h1, h2, h3, h4]⟩
  | foreign g =>
    simp only [setFlag]
    by_cases hg : g.accepts v = true
    · left; simp [hg, sameFlags, h1, h2, h3, h4]
    · right; simp [hg]

/-- One step of `parseOne` on two states that differ at most in `configFile`. -/
theorem parseOne_sim (foreign : String → Option ForeignFlag) (a b : FlagSet)
    (args : List String) (h : sameFlags a b) :
    stepSim (parseOne foreign a args) (parseOne foreign b args) := by
  unfold parseOne
  split
  · exact ⟨h, rfl⟩
  · split
    · split
      · exact ⟨h, rfl⟩
      · split
        · exact ⟨h, rfl⟩
        · simp only
          split
          · rfl
          · split
            · rfl
            · split
              · split <;> rfl
              · rename_i f hf
                split
                · split
                  · rename_i value _
                    rcases setFlag_sim a b f _ value h with ⟨a1, b1, ha, hb, hs⟩ | ⟨ha, hb⟩
                    · rw [ha, hb]; exact ⟨hs, rfl⟩
                    · rw [ha, hb]; rfl
                  · rcases setFlag_sim a b f _ "true" h with ⟨a1, b1, ha, hb, hs⟩ | ⟨ha, hb⟩
                    · rw [ha, hb]; exact ⟨hs, rfl⟩
                    · rw [ha, hb]; rfl
                · split
                  · rename_i value _
                    rcases setFlag_sim a b f _ value h with ⟨a1, b1, ha, hb, hs⟩ | ⟨ha, hb⟩
                    · rw [ha, hb]; exact ⟨hs, rfl⟩
                    · rw [ha, hb]; rfl
                  · rename_i value _ _
                    rcases setFlag_sim a b f _ value h with ⟨a1, b1, ha, hb, hs⟩ | ⟨ha, hb⟩
                    · rw [ha, hb]; exact ⟨hs, rfl⟩
                    · rw [ha, hb]; rfl
                  · rfl
    · exact ⟨h, rfl⟩

/-- The loop on two states that differ at most in `configFile`. -/
theorem parseLoop_sim (foreign : String → Option ForeignFlag) :
    ∀ (n : Nat) (a b : FlagSet) (args : List String), sameFlags a b →
      (∃ a1 b1, parseLoop foreign n a args = Except.ok a1 ∧
          parseLoop foreign n b args = Except.ok b1 ∧ sameFlags a1 b1) ∨
      (∃ e, parseLoop foreign n a args = Except.error e ∧
          parseLoop foreign n b args = Except.error e) := by
  intro n
  induction n with
  | zero => intro a b args h; exact Or.inl ⟨a, b, rfl, rfl, h⟩
  | succ n ih =>
    intro a b args h
    have hs := parseOne_sim foreign a b args h
    simp only [parseLoop]
    cases ha : parseOne foreign a args with
    | stop a1 r =>
      cases hb : parseOne foreign b args with
      | stop b1 r1 =>
        rw [ha, hb] at hs
        exact Or.inl ⟨a1, b1, rfl, rfl, hs.1⟩
      | next b1 r1 => rw [ha, hb] at hs; exact hs.elim
      | fail e1 => rw [ha, hb] at hs; exact hs.elim
    | next a1 r =>
      cases hb : parseOne foreign b args with
      | stop b1 r1 => rw [ha, hb] at hs; exact hs.elim
      | next b1 r1 =>
        rw [ha, hb] at hs
        obtain ⟨h1, h2⟩ := hs
        subst h2
        exact ih a1 b1 r h1
      | fail e1 => rw [ha, hb] at hs; exact hs.elim
    | fail e =>
      cases hb : parseOne foreign b args with
      | stop b1 r1 => rw [ha, hb] at hs; exact hs.elim
      | next b1 r1 => rw [ha, hb] at hs; exact hs.elim
      | fail e1 =>
        rw [ha, hb] at hs
        have : e = e1 := hs
        subst this
        exact Or.inr ⟨e, rfl, rfl⟩

/-- The environment changes nothing of what `Parse` reads off the command
line: with and without the `CONFIG` override it fails alike, or succeeds with
the same history and the same other flags. -/
theorem Parse_env (foreign : String → Option ForeignFlag) (env : String → String)
    (args : List String) :
    (∃ a1 b1, Parse foreign (envOverride env flagDefaults) args = Except.ok a1 ∧
        Parse foreign flagDefaults args = Except.ok b1 ∧ sameFlags a1 b1) ∨
    (∃ e, Parse foreign (envOverride env flagDefaults) args = Except.error e ∧
        Parse foreign flagDefaults args = Except.error e) := by
  apply parseLoop_sim
  unfold envOverride sameFlags
  split <;> simp

/-! ## Handler registration -/

/-- A registration that does not panic appends its event and its entry. -/
theorem handleStep_ok {ε : Type} (st st1 : List (Event ε) × ServeMux ε) (p : String)
    (h : Handler ε) (hs : handleStep st p h = Except.ok st1) :
    st1 = (st.1 ++ [Event.handle p h], st.2 ++ [(p, h)]) := by
  unfold handleStep ServeMux.Handle at hs
  split at hs
  · rename_i mux1 hm
    split at hm
    · cases hm
    · split at hm
      · cases hm
      · cases hm
        cases hs
        rfl
  · cases hs

/-- A registration that panics appends the panic to the trace. -/
theorem handleStep_error {ε : Type} (st : List (Event ε) × ServeMux ε) (p : String)
    (h : Handler ε) (t : List (Event ε)) (hs : handleStep st p h = Except.error t) :
    ∃ msg, t = st.1 ++ [Event.panic msg] := by
  unfold handleStep at hs
  split at hs
  · cases hs
  · rename_i msg _
    cases hs
    exact ⟨msg, rfl⟩

/-- A non-empty pattern that is not yet in the mux is registered. -/
theorem handleStep_fresh {ε : Type} (st : List (Event ε) × ServeMux ε) (p : String)
    (h : Handler ε) (h1 : p ≠ "") (h2 : p ∉ st.2.map Prod.fst) :
    handleStep st p h = Except.ok (st.1 ++ [Event.handle p h], st.2 ++ [(p, h)]) := by
  unfold handleStep ServeMux.Handle
  rw [if_neg h1, if_neg h2]

/-- A run of registrations without panic registers all of them, in order. -/
theorem handleAll_ok {ε : Type} (regs : List (String × Handler ε)) :
    ∀ (st st1 : List (Event ε) × ServeMux ε), handleAll st regs = Except.ok st1 →
      st1 = (st.1 ++ regs.map (fun r => Event.handle r.1 r.2), st.2 ++ regs) := by
  induction regs with
  | nil =>
    intro st st1 h
    simp only [handleAll, Except.ok.injEq] at h
    simp [← h]
  | cons r rest ih =>
    intro st st1 h
    simp only [handleAll] at h
    split at h
    · rename_i st2 h2
      have e2 := handleStep_ok _ _ _ _ h2
      have := ih st2 st1 h
      rw [this, e2]
      simp
    · cases h

/-- A run of registrations that panics has made a proper initial part of the
registrations before the panic. -/
theorem handleAll_error {ε : Type} (regs : List (String × Handler ε)) :
    ∀ (st : List (Event ε) × ServeMux ε) (t : List (Event ε)),
      handleAll st regs = Except.error t →
      ∃ (made : List (String × Handler ε)) (msg : String),
        made.length < regs.length ∧ made = regs.take made.length ∧
        t = st.1 ++ made.map (fun r => Event.handle r.1 r.2) ++ [Event.panic msg] := by
  induction regs with
  | nil => intro st t h; cases h
  | cons r rest ih =>
    intro st t h
    simp only [handleAll] at h
    split at h
    · rename_i st2 h2
      have e2 := handleStep_ok _ _ _ _ h2
      obtain ⟨made, msg, hlen, htake, ht⟩ := ih st2 t h
      refine ⟨r :: made, msg, by simp [hlen], ?_, ?_⟩
      · simp only [List.length_cons, List.take_succ_cons]
        rw [← htake]
      · rw [ht, e2]
        simp
    · rename_i t2 h2
      obtain ⟨msg, hm⟩ := handleStep_error _ _ _ _ h2
      cases h
      exact ⟨[], msg, by simp, by simp, by simp [hm]⟩

/-- Non-empty patterns, distinct from each other and each absent from the
mux, are all registered. -/
theorem handleAll_accepts {ε : Type} (regs : List (String × Handler ε)) :
    ∀ (st : List (Event ε) × ServeMux ε),
      (∀ r ∈ regs, r.1 ≠ "" ∧ r.1 ∉ st.2.map Prod.fst) → (regs.map Prod.fst).Nodup →
      handleAll st regs =
        Except.ok (st.1 ++ regs.map (fun r => Event.handle r.1 r.2), st.2 ++ regs) := by
  induction regs with
  | nil => intro st _ _; simp [handleAll]
  | cons r rest ih =>
    intro st hne hnd
    simp only [List.map_cons, List.nodup_cons] at hnd
    simp only [handleAll]
    rw [handleStep_fresh st r.1 r.2 (hne r (by simp)).1 (hne r (by simp)).2]
    simp only
    rw [ih _ _ hnd.2]
    · simp
    · intro r1 h1
      refine ⟨(hne r1 (by simp [h1])).1, ?_⟩
      simp only [List.map_append, List.map_cons, List.map_nil, List.mem_append,
        List.mem_singleton, not_or]
      refine ⟨(hne r1 (by simp [h1])).2, ?_⟩
      intro heq
      exact hnd.1 (heq ▸ List.mem_map_of_mem Prod.fst h1)

/-- A run of registrations that goes through had only non-empty patterns,
distinct from each other and each absent from the mux. -/
theorem handleAll_ok_only {ε : Type} (regs : List (String × Handler ε)) :
    ∀ (st st1 : List (Event ε) × ServeMux ε), handleAll st regs = Except.ok st1 →
      (∀ r ∈ regs, r.1 ≠ "" ∧ r.1 ∉ st.2.map Prod.fst) ∧ (regs.map Prod.fst).Nodup := by
  induction regs with
  | nil => intro st st1 _; simp
  | cons r rest ih =>
    intro st st1 h
    simp only [handleAll] at h
    split at h
    · rename_i st2 h2
      have e2 := handleStep_ok _ _ _ _ h2
      have hr : r.1 ≠ "" ∧ r.1 ∉ st.2.map Prod.fst := by
        unfold handleStep ServeMux.Handle at h2
        by_cases c1 : r.1 = ""
        · simp [c1] at h2
        · by_cases c2 : r.1 ∈ st.2.map Prod.fst
          · rw [if_neg c1, if_pos c2] at h2
            cases h2
          · exact ⟨c1, c2⟩
      obtain ⟨hrest, hnd⟩ := ih st2 st1 h
      rw [e2] at hrest
      simp only [List.map_append, List.map_cons, List.map_nil, List.mem_append,
        List.mem_singleton, not_or] at hrest
      constructor
      · intro r1 h1
        simp only [List.mem_cons] at h1
        rcases h1 with rfl | h1
        · exact hr
        · exact ⟨(hrest r1 h1).1, (hrest r1 h1).2.1⟩
      · simp only [List.map_cons, List.nodup_cons]
        refine ⟨?_, hnd⟩
        intro hmem
        rw [List.mem_map] at hmem
        obtain ⟨r1, h1, heq⟩ := hmem
        exact (hrest r1 h1).2.2 heq
    · cases h

/-- The five registrations of `main` go through exactly when the metrics path
is free, provided the four fixed patterns are not in the mux at entry. -/
theorem mainRegistrations_free {ε : Type} (fs : FlagSet) (e : ε) (mux : ServeMux ε)
    (hfree : ∀ q ∈ fixedPatterns, q ∉ mux.map Prod.fst) :
    ((∀ r ∈ mainRegistrations fs e, r.1 ≠ "" ∧ r.1 ∉ mux.map Prod.fst) ∧
        ((mainRegistrations fs e).map Prod.fst).Nodup) ↔
      metricsPathFree mux fs.metricsPath := by
  have f1 := hfree "/healthz" (by decide)
  have f2 := hfree "/" (by decide)
  have f3 := hfree "/config" (by decide)
  have f4 := hfree "/objserv_exporter_metrics" (by decide)
  unfold metricsPathFree fixedPatterns
  simp only [mainRegistrations, List.map_cons, List.map_nil, List.mem_cons, List.not_mem_nil,
    or_false, List.nodup_cons, List.nodup_nil, and_true, not_or, forall_eq_or_imp, forall_eq]
  constructor
  · rintro ⟨⟨_, _, _, ⟨h1, h2⟩, _⟩, ⟨_, _, n1, _⟩, ⟨_, n2, _⟩, ⟨n3, _⟩, n4⟩
    exact ⟨h1, ⟨Ne.symm n1, Ne.symm n2, Ne.symm n3, n4.1⟩, h2⟩
  · rintro ⟨h1, ⟨n1, n2, n3, n4⟩, h2⟩
    refine ⟨⟨⟨by decide, f1⟩, ⟨by decide, f2⟩, ⟨by decide, f3⟩, ⟨h1, h2⟩,
      ⟨by decide, f4⟩⟩, ⟨by decide, by decide, Ne.symm n1, by decide⟩,
      ⟨by decide, Ne.symm n2, by decide⟩, ⟨Ne.symm n3, by decide⟩, n4, not_false⟩

/-! ## The calls `main` makes -/

/-- Calls of `NewExporter` in a concatenated trace. -/
theorem newExporterCalls_append {ε : Type} (a b : List (Event ε)) :
    newExporterCalls (a ++ b) = newExporterCalls a ++ newExporterCalls b := by
  simp [newExporterCalls, List.filterMap_append]

/-- Handler registrations are no `NewExporter` calls. -/
theorem newExporterCalls_handles {ε : Type} (regs : List (String × Handler ε)) :
    newExporterCalls (regs.map (fun r => Event.handle r.1 r.2)) = [] := by
  induction regs with
  | nil => rfl
  | cons r rest ih =>
    simp only [List.map_cons, newExporterCalls, List.filterMap_cons] at ih ⊢
    exact ih

/-- The first lines of `main` do not call `NewExporter`. -/
theorem newExporterCalls_preamble {ε : Type} (foreign : String → Option ForeignFlag)
    (env : String → String) : newExporterCalls (preamble foreign env : List (Event ε)) = [] := by
  unfold preamble
  split <;> split <;> simp [newExporterCalls]

/-- Serving adds no `NewExporter` call. -/
theorem newExporterCalls_serve {ε : Type} (fs : FlagSet) (e : ε) (t : List (Event ε))
    (mux : ServeMux ε) : newExporterCalls (serve fs e t mux) = newExporterCalls t := by
  unfold serve
  split
  · rename_i s5 h
    rw [handleAll_ok _ _ _ h]
    simp only [newExporterCalls_append, newExporterCalls_handles]
    simp [newExporterCalls]
  · rename_i t1 h
    obtain ⟨made, msg, _, _, ht⟩ := handleAll_error _ _ _ h
    rw [ht]
    simp only [newExporterCalls_append, newExporterCalls_handles]
    simp [newExporterCalls]

/-- The `NewExporter` calls of `main`, in terms of the flag state `Parse` leaves
in the run itself. -/
theorem newExporterCalls_main {ε : Type} (vt : VersionText)
    (foreign : String → Option ForeignFlag) (NewExporter : String → Except String ε)
    (env : String → String) (args : List String) (mux : ServeMux ε) :
    newExporterCalls (main vt foreign NewExporter env args mux) =
      (match Parse foreign (envOverride env flagDefaults) args with
       | Except.ok fs =>
         if fs.showVersion then []
         else [configFileChoice (lastSet "config.file" fs.actual) (env "CONFIG")]
       | Except.error _ => []) := by
  unfold main
  cases hp : Parse foreign (envOverride env flagDefaults) args with
  | error e =>
    simp only [newExporterCalls_append, newExporterCalls_preamble]
    rfl
  | ok fs =>
    have h0 : (envOverride env flagDefaults).actual = [] := by
      unfold envOverride; split <;> rfl
    have htr := (Parse_tracks foreign _ fs args h0 hp).1
    have hcf : fs.configFile =
        configFileChoice (lastSet "config.file" fs.actual) (env "CONFIG") := by
      rw [htr]
      unfold configFileChoice envOverride
      cases lastSet "config.file" fs.actual with
      | some v => rfl
      | none => by_cases hc : env "CONFIG" ≠ "" <;> simp [hc, flagDefaults]
    simp only
    by_cases hv : fs.showVersion = true
    · simp only [hv, if_true, newExporterCalls_append, newExporterCalls_preamble]
      rfl
    · simp only [hv, if_false, Bool.false_eq_true]
      cases hn : NewExporter fs.configFile with
      | error err =>
        simp only [newExporterCalls_append, newExporterCalls_preamble]
        rw [← hcf]
        rfl
      | ok e =>
        simp only [newExporterCalls_serve, newExporterCalls_append, newExporterCalls_preamble]
        rw [← hcf]
        rfl

/-- Registrations in a concatenated trace. -/
theorem registrations_append {ε : Type} (a b : List (Event ε)) :
    registrations (a ++ b) = registrations a ++ registrations b := by
  simp [registrations, List.filterMap_append]

/-- Listening calls in a concatenated trace. -/
theorem listenCalls_append {ε : Type} (a b : List (Event ε)) :
    listenCalls (a ++ b) = listenCalls a ++ listenCalls b := by
  simp [listenCalls, List.filterMap_append]

/-- The registrations of a run of registration events are those events. -/
theorem registrations_handles {ε : Type} (regs : List (String × Handler ε)) :
    registrations (regs.map (fun r => Event.handle r.1 r.2)) = regs := by
  induction regs with
  | nil => rfl
  | cons r rest ih =>
    simp only [List.map_cons, registrations, List.filterMap_cons] at ih ⊢
    rw [ih]

/-- Handler registrations are no listening calls. -/
theorem listenCalls_handles {ε : Type} (regs : List (String × Handler ε)) :
    listenCalls (regs.map (fun r => Event.handle r.1 r.2)) = [] := by
  induction regs with
  | nil => rfl
  | cons r rest ih =>
    simp only [List.map_cons, listenCalls, List.filterMap_cons] at ih ⊢
    exact ih

/-- The first lines of `main` register no handler. -/
theorem registrations_preamble {ε : Type} (foreign : String → Option ForeignFlag)
    (env : String → String) : registrations (preamble foreign env : List (Event ε)) = [] := by
  unfold preamble
  split <;> split <;> simp [registrations]

/-- The first lines of `main` do not listen. -/
theorem listenCalls_preamble {ε : Type} (foreign : String → Option ForeignFlag)
    (env : String → String) : listenCalls (preamble foreign env : List (Event ε)) = [] := by
  unfold preamble
  split <;> split <;> simp [listenCalls]

/-- The run of `main` when `-version` is set. -/
theorem main_version {ε : Type} (vt : VersionText)
    (foreign : String → Option ForeignFlag) (NewExporter : String → Except String ε)
    (env : String → String) (args : List String) (mux : ServeMux ε) (cl : FlagSet)
    (hp : Parse foreign flagDefaults args = Except.ok cl) (hv : cl.showVersion = true) :
    main vt foreign NewExporter env args mux =
      preamble foreign env ++ [Event.println (vt.print "obj_exporter"), Event.exit 0] := by
  rcases Parse_env foreign env args with ⟨a1, b1, ha, hb, h1, _, _, _⟩ | ⟨e, _, hb⟩
  · rw [hp] at hb
    cases hb
    unfold main
    simp only [ha]
    rw [if_pos (h1.trans hv)]
  · rw [hp] at hb
    cases hb

/-- The run of `main` once the flags have parsed and `-version` is not set:
the start message, the call of `NewExporter` with the chosen file name, then
the fatal error or the serving part. -/
theorem main_after_parse {ε : Type} (vt : VersionText)
    (foreign : String → Option ForeignFlag) (NewExporter : String → Except String ε)
    (env : String → String) (args : List String) (mux : ServeMux ε) (cl : FlagSet)
    (hp : Parse foreign flagDefaults args = Except.ok cl) (hv : cl.showVersion = false) :
    main vt foreign NewExporter env args mux =
      (match NewExporter (configFileChoice (lastSet "config.file" cl.actual) (env "CONFIG")) with
       | Except.error err =>
         preamble foreign env ++
           [Event.infof ("Starting ObjectServer Exporter " ++ vt.info ++ " " ++
              vt.buildContext),
            Event.newExporter
              (configFileChoice (lastSet "config.file" cl.actual) (env "CONFIG"))] ++
           [Event.fatalf ("Error creating exporter: " ++ err)]
       | Except.ok e =>
         serve cl e
           (preamble foreign env ++
             [Event.infof ("Starting ObjectServer Exporter " ++ vt.info ++ " " ++
                vt.buildContext),
              Event.newExporter
                (configFileChoice (lastSet "config.file" cl.actual) (env "CONFIG"))])
           mux) := by
  rcases Parse_env foreign env args with ⟨a1, b1, ha, hb, s1, s2, s3, s4⟩ | ⟨e, _, hb⟩
  · rw [hp] at hb
    cases hb
    have h0 : (envOverride env flagDefaults).actual = [] := by
      unfold envOverride; split <;> rfl
    have htr := (Parse_tracks foreign _ a1 args h0 ha).1
    have hcf : a1.configFile =
        configFileChoice (lastSet "config.file" cl.actual) (env "CONFIG") := by
      rw [htr, s4]
      unfold configFileChoice envOverride
      cases lastSet "config.file" cl.actual with
      | some v => rfl
      | none => by_cases hc : env "CONFIG" ≠ "" <;> simp [hc, flagDefaults]
    have hserve : ∀ (e : ε) (t : List (Event ε)), serve a1 e t mux = serve cl e t mux := by
      intro e t
      simp only [serve, mainRegistrations, s2, s3]
    unfold main
    simp only [ha]
    rw [if_neg (by rw [s1, hv]; simp), hcf]
    cases NewExporter (configFileChoice (lastSet "config.file" cl.actual) (env "CONFIG")) with
    | error err => rfl
    | ok e => simp only [hserve]
  · rw [hp] at hb
    cases hb

/-- Serving with a free metrics path: all five handlers are registered and
the server listens. -/
theorem serve_free {ε : Type} (fs : FlagSet) (e : ε) (t : List (Event ε)) (mux : ServeMux ε)
    (hfree : ∀ q ∈ fixedPatterns, q ∉ mux.map Prod.fst)
    (hp : metricsPathFree mux fs.metricsPath) :
    serve fs e t mux =
      t ++ (mainRegistrations fs e).map (fun r => Event.handle r.1 r.2) ++
        [Event.infof ("Listening on " ++ fs.listenAddress),
         Event.listenAndServe fs.listenAddress (mux ++ mainRegistrations fs e)] := by
  obtain ⟨h1, h2⟩ := (mainRegistrations_free fs e mux hfree).mpr hp
  unfold serve
  rw [handleAll_accepts (mainRegistrations fs e) (t, mux) h1 h2]

/-- Serving with a metrics path that is empty or taken: one of the
registrations panics, after a proper initial part of them, and the trace ends
there. -/
theorem serve_taken {ε : Type} (fs : FlagSet) (e : ε) (t : List (Event ε)) (mux : ServeMux ε)
    (hfree : ∀ q ∈ fixedPatterns, q ∉ mux.map Prod.fst)
    (hp : ¬ metricsPathFree mux fs.metricsPath) :
    ∃ (made : List (String × Handler ε)) (msg : String),
      serve fs e t mux = t ++ made.map (fun r => Event.handle r.1 r.2) ++ [Event.panic msg] := by
  unfold serve
  cases h : handleAll (t, mux) (mainRegistrations fs e) with
  | ok s5 =>
    exact absurd ((mainRegistrations_free fs e mux hfree).mp (handleAll_ok_only _ _ _ h)) hp
  | error t1 =>
    obtain ⟨made, msg, _, _, ht⟩ := handleAll_error _ _ _ h
    exact ⟨made, msg, ht⟩

/-- With no argument `Parse` leaves the flag variables as they were. -/
theorem Parse_nil (foreign : String → Option ForeignFlag) (fs : FlagSet) :
    Parse foreign fs [] = Except.ok fs := rfl

/-! ## The collection engine: the names of the samples -/

/-- A sample made by RowMapper carries the metric name of its query. -/
theorem Map_name {ν : Type} (co : Coercion ν) (ts : Nat) (row : RawRow ν)
    (qd : QueryDefinition) (s : MetricSample ν)
    (h : RowMapper.Map co ts row qd = Except.ok s) : s.name = qd.metricName := by
  unfold RowMapper.Map at h
  split at h
  · cases h
  · cases h
    rfl

/-- Every sample among the row results of a query carries the metric name of
the query. -/
theorem mapRows_name {ν : Type} (co : Coercion ν) (ts : Nat) (qd : QueryDefinition)
    (rows : List (RawRow ν)) :
    ∀ (seen : List (List (String × String))) (s : MetricSample ν),
      Except.ok s ∈ mapRows co ts qd seen rows → s.name = qd.metricName := by
  induction rows with
  | nil => intro seen s h; simp [mapRows] at h
  | cons row rest ih =>
    intro seen s h
    simp only [mapRows] at h
    split at h
    · simp only [List.mem_cons] at h
      rcases h with h | h
      · cases h
      · exact ih seen s h
    · rename_i s1 hm
      split at h
      · simp only [List.mem_cons] at h
        rcases h with h | h
        · cases h
        · exact ih seen s h
      · simp only [List.mem_cons] at h
        rcases h with h | h
        · cases h
          exact Map_name co ts row qd s hm
        · exact ih _ s h

/-- Every sample a query contributes carries the metric name of the query. -/
theorem runQuery_name {ν : Type} (co : Coercion ν) (ts : Nat) (qd : QueryDefinition)
    (run : Except Failure (List (RawRow ν))) (s : MetricSample ν)
    (h : s ∈ (runQuery co ts qd run).samples) : s.name = qd.metricName := by
  unfold QueryOutcome.samples at h
  rw [List.mem_filterMap] at h
  obtain ⟨r, hr, hs⟩ := h
  cases r with
  | error f => simp [rowSample] at hs
  | ok s1 =>
    simp only [rowSample, Option.some.injEq] at hs
    subst hs
    cases run with
    | error f => simp [runQuery] at hr
    | ok rows => exact mapRows_name co ts qd rows [] s1 hr

/-- The samples of the queries of a target, when no query is named like a
meta-metric, hold no sample of the given meta-metric name. -/
theorem query_samples_count {ν : Type} (co : Coercion ν) (ts : Nat) (name : String)
    (backend : QueryDefinition → Except Failure (List (RawRow ν)))
    (queries : List QueryDefinition) (h : ∀ qd ∈ queries, qd.metricName ≠ name) :
    ((queries.map (fun qd => runQuery co ts qd (backend qd))).map
        (fun o => o.samples)).flatten.countP (fun s => s.name = name) = 0 := by
  rw [List.countP_eq_zero]
  intro s hs
  simp only [List.mem_flatten, List.mem_map, exists_exists_and_eq_and] at hs
  obtain ⟨qd, hqd, hmem⟩ := hs
  have := runQuery_name co ts qd (backend qd) s hmem
  simp only [decide_eq_true_eq]
  rw [this]
  exact h qd hqd

/-! ## The collection engine: rows with a null value -/

/-- A row whose value column is null maps to the ValueCoercion failure. -/
theorem Map_null {ν : Type} (co : Coercion ν) (ts : Nat) (row : RawRow ν)
    (qd : QueryDefinition) (h : column row qd.valueColumn = some Cell.null) :
    RowMapper.Map co ts row qd = Except.error Failure.ValueCoercion := by
  simp [RowMapper.Map, h, coerceValue]

/-- The mapping gives one result per row. -/
theorem mapRows_length {ν : Type} (co : Coercion ν) (ts : Nat) (qd : QueryDefinition)
    (rows : List (RawRow ν)) :
    ∀ seen, (mapRows co ts qd seen rows).length = rows.length := by
  induction rows with
  | nil => intro seen; rfl
  | cons row rest ih =>
    intro seen
    simp only [mapRows]
    split
    · simp [ih]
    · split <;> simp [ih]

/-- The result at the position of a null-valued row is the ValueCoercion
failure, whatever was seen before. -/
theorem mapRows_null {ν : Type} (co : Coercion ν) (ts : Nat) (qd : QueryDefinition)
    (rows : List (RawRow ν)) :
    ∀ (seen : List (List (String × String))) (i : Nat) (row : RawRow ν),
      rows[i]? = some row → column row qd.valueColumn = some Cell.null →
      (mapRows co ts qd seen rows)[i]? = some (Except.error Failure.ValueCoercion) := by
  induction rows with
  | nil => intro seen i row h; simp at h
  | cons r rest ih =>
    intro seen i row h hnull
    cases i with
    | zero =>
      simp only [List.getElem?_cons_zero, Option.some.injEq] at h
      subst h
      simp [mapRows, Map_null co ts r qd hnull]
    | succ i =>
      simp only [List.getElem?_cons_succ] at h
      simp only [mapRows]
      split
      · simpa using ih seen i row h hnull
      · split
        · simpa using ih seen i row h hnull
        · simpa using ih _ i row h hnull

/-- When every row has a null value every result is the ValueCoercion
failure. -/
theorem mapRows_all_null {ν : Type} (co : Coercion ν) (ts : Nat) (qd : QueryDefinition)
    (rows : List (RawRow ν)) :
    ∀ (seen : List (List (String × String))),
      (∀ row ∈ rows, column row qd.valueColumn = some Cell.null) →
      mapRows co ts qd seen rows = rows.map (fun _ => Except.error Failure.ValueCoercion) := by
  induction rows with
  | nil => intro seen _; rfl
  | cons r rest ih =>
    intro seen h
    simp only [mapRows, Map_null co ts r qd (h r (by simp)), List.map_cons]
    rw [ih seen (fun row hr => h row (by simp [hr]))]

/-! ## The `LogFunc` adapter -/

/-- A slice wrapped as a single argument is never the argument list it
wraps. -/
theorem slice_ne_self (args : List GoValue) : [GoValue.slice args] ≠ args := by
  intro h
  have := congrArg sizeOf h
  simp at this
  omega

/-! ## Sample runs of `main` -/

/-- Three command lines under `CONFIG=env.yml`: no flag (the environment
wins over the default), `-config.file=a.yml` (the flag wins), and the flag
given twice (the last value wins). -/
theorem main_config_samples :
    newExporterCalls (main ⟨fun p => p, "", ""⟩ (fun _ => none)
        (fun _ => (Except.ok () : Except String Unit))
        (fun k => if k = "CONFIG" then "env.yml" else "") [] (initialMux Unit)) =
      ["env.yml"] ∧
    newExporterCalls (main ⟨fun p => p, "", ""⟩ (fun _ => none)
        (fun _ => (Except.ok () : Except String Unit))
        (fun k => if k = "CONFIG" then "env.yml" else "") ["-config.file=a.yml"]
        (initialMux Unit)) = ["a.yml"] ∧
    newExporterCalls (main ⟨fun p => p, "", ""⟩ (fun _ => none)
        (fun _ => (Except.ok () : Except String Unit))
        (fun k => if k = "CONFIG" then "env.yml" else "")
        ["--config.file", "a.yml", "-web.listen-address=:1", "-config.file", "b.yml"]
        (initialMux Unit)) = ["b.yml"] ∧
    newExporterCalls (main ⟨fun p => p, "", ""⟩ (fun _ => none)
        (fun _ => (Except.ok () : Except String Unit)) (fun _ => "") []
        (initialMux Unit)) = ["objserv_exporter.yml"] := by
  refine ⟨by rfl, by rfl, by rfl, by rfl⟩

/-! ## The claims -/

/-- C1, as stated, fails for a `HEAD` request: the handler writes the three
bytes but the server sends no body, so the body is not "OK" with a newline,
and the response differs from the one a `GET` request gets. -/
theorem healthz_head_has_no_body :
    (serveHealthz () () { method := "HEAD", path := "/healthz", header := [], body := "" }).body
      = "" ∧
    (serveHealthz () () { method := "HEAD", path := "/healthz", header := [], body := "" }).body
      ≠ "OK\n" ∧
    serveHealthz () () { method := "HEAD", path := "/healthz", header := [], body := "" } ≠
      serveHealthz () () { method := "GET", path := "/healthz", header := [], body := "" } := by
  refine ⟨by rfl, by decide, by decide⟩

/-- C1, amended: the `/healthz` handler answers every request with status 200
and writes "OK" and a newline, three bytes; the body sent is that text for
every method but `HEAD`, and empty for `HEAD`.  Two requests that agree on
whether the method is `HEAD` get the same response, whatever else they hold
and whatever the state of the exporter and of the ObjectServer. -/
theorem healthz_static_ok {ε σ : Type} (e1 e2 : ε) (s1 s2 : σ) (r1 r2 : Request)
    (hm : r1.method = "HEAD" ↔ r2.method = "HEAD") :
    serveHealthz e1 s1 r1 =
      { status := 200
        header := [("Content-Type", "text/plain; charset=utf-8"),
                   ("X-Content-Type-Options", "nosniff")]
        contentLength := 3
        body := if r1.method = "HEAD" then "" else "OK\n" } ∧
    serveHealthz e1 s1 r1 = serveHealthz e2 s2 r2 := by
  have key : ∀ (e : ε) (s : σ) (r : Request), serveHealthz e s r =
      { status := 200
        header := [("Content-Type", "text/plain; charset=utf-8"),
                   ("X-Content-Type-Options", "nosniff")]
        contentLength := 3
        body := if r.method = "HEAD" then "" else "OK\n" } := by
    intro e s r
    by_cases h : r.method = "HEAD"
    · simp only [serveHealthz, healthzHandler, httpError, ResponseWriter.fresh,
        ResponseWriter.WriteHeader, ResponseWriter.Write, ResponseWriter.response, h]
      rfl
    · simp only [serveHealthz, healthzHandler, httpError, ResponseWriter.fresh,
        ResponseWriter.WriteHeader, ResponseWriter.Write, ResponseWriter.response]
      rw [if_neg (by decide), if_neg (by decide), if_neg h, if_neg h]
      rfl
  refine ⟨key e1 s1 r1, ?_⟩
  rw [key e1 s1 r1, key e2 s2 r2]
  by_cases h : r1.method = "HEAD"
  · rw [if_pos h, if_pos (hm.mp h)]
  · rw [if_neg h, if_neg (fun h2 => h (hm.mpr h2))]

/-- C1, amended, at a `GET` without content and a `POST` with content, under
two different exporter states. -/
theorem healthz_static_ok_witness :
    serveHealthz (0 : Nat) () { method := "GET", path := "/healthz", header := [], body := "" } =
      { status := 200
        header := [("Content-Type", "text/plain; charset=utf-8"),
                   ("X-Content-Type-Options", "nosniff")]
        contentLength := 3
        body := "OK\n" } ∧
    serveHealthz (0 : Nat) () { method := "GET", path := "/healthz", header := [], body := "" } =
      serveHealthz (7 : Nat) ()
        { method := "POST", path := "/healthz", header := [("X-Probe", "1")], body := "ping" } :=
  healthz_static_ok (0 : Nat) 7 () ()
    { method := "GET", path := "/healthz", header := [], body := "" }
    { method := "POST", path := "/healthz", header := [("X-Probe", "1")], body := "ping" }
    (by decide)

/-- C3, evaluated on the code: at the two-argument call
`LogFunc(f).Println("a", "b")` the function `f` is called once and receives one argument, the slice holding
"a" and "b", not the two arguments; and for every argument list the single
call made never carries that argument list itself. -/
theorem println_wraps_arguments :
    LogFunc.Println recordCall [GoValue.str "a", GoValue.str "b"] [] =
        [[GoValue.slice [GoValue.str "a", GoValue.str "b"]]] ∧
    LogFunc.Println recordCall [GoValue.str "a", GoValue.str "b"] [] ≠
        [[GoValue.str "a", GoValue.str "b"]] ∧
    (∀ args : List GoValue,
        LogFunc.Println recordCall args [] = [[GoValue.slice args]] ∧
        LogFunc.Println recordCall args [] ≠ [args]) := by
  refine ⟨rfl, ?_, ?_⟩
  · intro h
    have h1 := congrArg (fun l => (l.map List.length)) h
    simp [LogFunc.Println, recordCall] at h1
  · intro args
    refine ⟨rfl, ?_⟩
    intro h
    simp only [LogFunc.Println, recordCall, List.nil_append, List.cons.injEq, and_true] at h
    exact slice_ne_self args h

/-- C4, as stated, fails for the build user and the build date: the collector
registered for "obj_exporter" carries the labels version, revision, branch and
goversion only, so two builds that differ in `BuildUser` and `BuildDate` alone
register the same collector. -/
theorem collector_hides_build_user :
    (init (sourceBuildVars "2026-11-04T14:44:06Z")
        { version := { Version := "", Revision := "", Branch := "", BuildUser := "",
                       BuildDate := "", GoVersion := "go1.21.0" },
          registry := [] }).registry =
      [{ program := "obj_exporter",
         constLabels := [("version", "0.5.3"), ("revision", "2"), ("branch", "master"),
                         ("goversion", "go1.21.0")] }] ∧
    (init { sourceBuildVars "2020-01-02T03:04:05Z" with BuildUser := "someone" }
        { version := { Version := "", Revision := "", Branch := "", BuildUser := "",
                       BuildDate := "", GoVersion := "go1.21.0" },
          registry := [] }).registry =
      (init (sourceBuildVars "2026-11-04T14:44:06Z")
        { version := { Version := "", Revision := "", Branch := "", BuildUser := "",
                       BuildDate := "", GoVersion := "go1.21.0" },
          registry := [] }).registry ∧
    (sourceBuildVars "2020-01-02T03:04:05Z").BuildDate ≠
      (sourceBuildVars "2026-11-04T14:44:06Z").BuildDate ∧
    ({ sourceBuildVars "2020-01-02T03:04:05Z" with BuildUser := "someone" } : BuildVars).BuildUser ≠
      (sourceBuildVars "2026-11-04T14:44:06Z").BuildUser := by
  refine ⟨by rfl, by rfl, by decide, by decide⟩

/-- C4, amended: after `init` the `version` package holds the package
variables (branch, build user, build date, revision, and the version taken
from `VersionShort`), and the collector registered for "obj_exporter" exposes
of them the version, the revision and the branch, next to the Go version.
With the values in the source that is version "0.5.3", revision "2", branch
"master", and `Version` equals `VersionShort`. -/
theorem init_build_info (vars : BuildVars) (s : InitState) (startTime : String) :
    (init vars s).version =
      { Version := vars.VersionShort, Revision := vars.Revision, Branch := vars.Branch,
        BuildUser := vars.BuildUser, BuildDate := vars.BuildDate,
        GoVersion := s.version.GoVersion } ∧
    (init vars s).registry =
      s.registry ++
        [{ program := "obj_exporter",
           constLabels := [("version", vars.VersionShort), ("revision", vars.Revision),
                           ("branch", vars.Branch), ("goversion", s.version.GoVersion)] }] ∧
    (init (sourceBuildVars startTime) s).registry =
      s.registry ++
        [{ program := "obj_exporter",
           constLabels := [("version", "0.5.3"), ("revision", "2"), ("branch", "master"),
                           ("goversion", s.version.GoVersion)] }] ∧
    (init (sourceBuildVars startTime) s).version =
      { Version := "0.5.3", Revision := "2", Branch := "master",
        BuildUser := "d107684", BuildDate := startTime,
        GoVersion := s.version.GoVersion } ∧
    (sourceBuildVars startTime).Version = (sourceBuildVars startTime).VersionShort := by
  refine ⟨rfl, rfl, rfl, rfl, rfl⟩

/-- C2: the configuration file name `main` passes to `NewExporter` is the value
the command line gave last for `-config.file` if it gave one, else the value
of `CONFIG` if that is non-empty, else "objserv_exporter.yml".  `NewExporter`
is called once with that name, or not at all when the flags do not parse or
`-version` is set.  What the command line gave is read off `Parse` run on the
declared defaults, so it does not depend on the environment. -/
theorem config_file_precedence {ε : Type} (vt : VersionText)
    (foreign : String → Option ForeignFlag) (NewExporter : String → Except String ε)
    (env : String → String) (args : List String) (mux : ServeMux ε) :
    newExporterCalls (main vt foreign NewExporter env args mux) =
      (match Parse foreign flagDefaults args with
       | Except.ok cl =>
         if cl.showVersion then []
         else [configFileChoice (lastSet "config.file" cl.actual) (env "CONFIG")]
       | Except.error _ => []) := by
  rw [newExporterCalls_main]
  rcases Parse_env foreign env args with ⟨a1, b1, ha, hb, h1, _, _, h4⟩ | ⟨e, ha, hb⟩
  · rw [ha, hb]
    simp only [h1, h4]
  · rw [ha, hb]

/-- C5, as stated, fails when the metrics path is "/": the home page already
holds that pattern, `http.Handle` panics, the exporter handler is not
registered and `ListenAndServe` is never called. -/
theorem metrics_path_root_panics :
    registrations (main ⟨fun p => p, "", ""⟩ (fun _ => none)
        (fun _ => (Except.ok () : Except String Unit)) (fun _ => "")
        ["-web.metrics-path", "/", "-web.listen-address", ":9399"] (initialMux Unit)) =
      [("/healthz", Handler.healthz), ("/", Handler.home "/"),
       ("/config", Handler.config "/" ())] ∧
    listenCalls (main ⟨fun p => p, "", ""⟩ (fun _ => none)
        (fun _ => (Except.ok () : Except String Unit)) (fun _ => "")
        ["-web.metrics-path", "/", "-web.listen-address", ":9399"] (initialMux Unit)) = [] ∧
    ¬ (("/", Handler.exporter ()) ∈
        registrations (main ⟨fun p => p, "", ""⟩ (fun _ => none)
          (fun _ => (Except.ok () : Except String Unit)) (fun _ => "")
          ["-web.metrics-path", "/", "-web.listen-address", ":9399"] (initialMux Unit)) ∧
      listenCalls (main ⟨fun p => p, "", ""⟩ (fun _ => none)
          (fun _ => (Except.ok () : Except String Unit)) (fun _ => "")
          ["-web.metrics-path", "/", "-web.listen-address", ":9399"] (initialMux Unit)) =
        [":9399"]) := by
  refine ⟨by rfl, by rfl, ?_⟩
  decide

/-- C5, amended.  Let the flags parse, `-version` be unset, and the four fixed
patterns be absent from the mux at entry.  The metrics path and the listen
address are the last values the command line gave, or "/metrics" and ":9399";
with no argument at all they are "/metrics" and ":9399".  If `NewExporter`
fails, nothing is registered and the server never listens.  If it succeeds
and the metrics path is free (not empty, not a fixed pattern, not in the mux),
the exporter handler is registered at the metrics path and nowhere else, and
the server listens on the listen address.  If it succeeds and the metrics
path is empty or taken, an `http.Handle` call panics and the server never
listens. -/
theorem exporter_handler_at_metrics_path {ε : Type} (vt : VersionText)
    (foreign : String → Option ForeignFlag) (NewExporter : String → Except String ε)
    (env : String → String) (args : List String) (mux : ServeMux ε) (cl : FlagSet)
    (hp : Parse foreign flagDefaults args = Except.ok cl) (hv : cl.showVersion = false)
    (hfree : ∀ q ∈ fixedPatterns, q ∉ mux.map Prod.fst) :
    (cl.metricsPath = (lastSet "web.metrics-path" cl.actual).getD "/metrics" ∧
      cl.listenAddress = (lastSet "web.listen-address" cl.actual).getD ":9399") ∧
    (args = [] → cl.metricsPath = "/metrics" ∧ cl.listenAddress = ":9399") ∧
    (∀ err, NewExporter (configFileChoice (lastSet "config.file" cl.actual) (env "CONFIG")) =
        Except.error err →
      registrations (main vt foreign NewExporter env args mux) = [] ∧
      listenCalls (main vt foreign NewExporter env args mux) = []) ∧
    (∀ e, NewExporter (configFileChoice (lastSet "config.file" cl.actual) (env "CONFIG")) =
        Except.ok e →
      metricsPathFree mux cl.metricsPath →
      (∀ p, (p, Handler.exporter e) ∈ registrations (main vt foreign NewExporter env args mux) ↔
        p = cl.metricsPath) ∧
      listenCalls (main vt foreign NewExporter env args mux) = [cl.listenAddress]) ∧
    (∀ e, NewExporter (configFileChoice (lastSet "config.file" cl.actual) (env "CONFIG")) =
        Except.ok e →
      ¬ metricsPathFree mux cl.metricsPath →
      listenCalls (main vt foreign NewExporter env args mux) = [] ∧
      ∃ msg, (main vt foreign NewExporter env args mux).getLast? = some (Event.panic msg)) := by
  have ht := Parse_tracks foreign flagDefaults cl args rfl hp
  have hmain := main_after_parse vt foreign NewExporter env args mux cl hp hv
  refine ⟨⟨ht.2.1, ht.2.2.1⟩, ?_, ?_, ?_, ?_⟩
  · intro ha
    subst ha
    rw [Parse_nil] at hp
    cases hp
    exact ⟨rfl, rfl⟩
  · intro err hn
    rw [hmain, hn]
    simp only [registrations_append, registrations_preamble, listenCalls_append,
      listenCalls_preamble]
    exact ⟨rfl, rfl⟩
  · intro e hn hpath
    rw [hmain, hn]
    simp only
    rw [serve_free cl e _ mux hfree hpath]
    constructor
    · intro p
      simp only [registrations_append, registrations_preamble, registrations_handles]
      simp [registrations, mainRegistrations]
    · simp only [listenCalls_append, listenCalls_preamble, listenCalls_handles]
      simp [listenCalls]
  · intro e hn hpath
    rw [hmain, hn]
    simp only
    obtain ⟨made, msg, hs⟩ := serve_taken cl e
      (preamble foreign env ++
        [Event.infof ("Starting ObjectServer Exporter " ++ vt.info ++ " " ++ vt.buildContext),
         Event.newExporter (configFileChoice (lastSet "config.file" cl.actual) (env "CONFIG"))])
      mux hfree hpath
    rw [hs]
    constructor
    · simp only [listenCalls_append, listenCalls_preamble, listenCalls_handles]
      simp [listenCalls]
    · exact ⟨msg, List.getLast?_concat _⟩

/-- C5, amended, at four runs on the sample mux: no flag at all ("/metrics"
and ":9399"), both flags given, a metrics path that is taken
("/objserv_exporter_metrics"), and a failing `NewExporter`. -/
theorem exporter_handler_at_metrics_path_witness :
    ((∀ p, (p, Handler.exporter ()) ∈
        registrations (main ⟨fun p => p, "", ""⟩ (fun _ => none)
          (fun _ => (Except.ok () : Except String Unit)) (fun _ => "") []
          (initialMux Unit)) ↔ p = "/metrics") ∧
      listenCalls (main ⟨fun p => p, "", ""⟩ (fun _ => none)
          (fun _ => (Except.ok () : Except String Unit)) (fun _ => "") []
          (initialMux Unit)) = [":9399"]) ∧
    ((∀ p, (p, Handler.exporter ()) ∈
        registrations (main ⟨fun p => p, "", ""⟩ (fun _ => none)
          (fun _ => (Except.ok () : Except String Unit)) (fun _ => "")
          ["-web.metrics-path=/probe", "--web.listen-address", ":9400"]
          (initialMux Unit)) ↔ p = "/probe") ∧
      listenCalls (main ⟨fun p => p, "", ""⟩ (fun _ => none)
          (fun _ => (Except.ok () : Except String Unit)) (fun _ => "")
          ["-web.metrics-path=/probe", "--web.listen-address", ":9400"]
          (initialMux Unit)) = [":9400"]) ∧
    (listenCalls (main ⟨fun p => p, "", ""⟩ (fun _ => none)
          (fun _ => (Except.ok () : Except String Unit)) (fun _ => "")
          ["-web.metrics-path=/objserv_exporter_metrics"] (initialMux Unit)) = [] ∧
      ∃ msg, (main ⟨fun p => p, "", ""⟩ (fun _ => none)
          (fun _ => (Except.ok () : Except String Unit)) (fun _ => "")
          ["-web.metrics-path=/objserv_exporter_metrics"] (initialMux Unit)).getLast? =
        some (Event.panic msg)) ∧
    (registrations (main ⟨fun p => p, "", ""⟩ (fun _ => none)
          (fun _ => (Except.error "unreadable" : Except String Unit)) (fun _ => "") []
          (initialMux Unit)) = [] ∧
      listenCalls (main ⟨fun p => p, "", ""⟩ (fun _ => none)
          (fun _ => (Except.error "unreadable" : Except String Unit)) (fun _ => "") []
          (initialMux Unit)) = []) :=
  ⟨(exporter_handler_at_metrics_path ⟨fun p => p, "", ""⟩ (fun _ => none)
      (fun _ => (Except.ok () : Except String Unit)) (fun _ => "") [] (initialMux Unit)
      flagDefaults rfl rfl (by decide)).2.2.2.1 () rfl ⟨by decide, by decide, by decide⟩,
   (exporter_handler_at_metrics_path ⟨fun p => p, "", ""⟩ (fun _ => none)
      (fun _ => (Except.ok () : Except String Unit)) (fun _ => "")
      ["-web.metrics-path=/probe", "--web.listen-address", ":9400"] (initialMux Unit)
      { showVersion := false, listenAddress := ":9400", metricsPath := "/probe",
        configFile := "objserv_exporter.yml",
        actual := [("web.metrics-path", "/probe"), ("web.listen-address", ":9400")] }
      rfl rfl (by decide)).2.2.2.1 () rfl ⟨by decide, by decide, by decide⟩,
   (exporter_handler_at_metrics_path ⟨fun p => p, "", ""⟩ (fun _ => none)
      (fun _ => (Except.ok () : Except String Unit)) (fun _ => "")
      ["-web.metrics-path=/objserv_exporter_metrics"] (initialMux Unit)
      { showVersion := false, listenAddress := ":9399",
        metricsPath := "/objserv_exporter_metrics",
        configFile := "objserv_exporter.yml",
        actual := [("web.metrics-path", "/objserv_exporter_metrics")] }
      rfl rfl (by decide)).2.2.2.2 () rfl (fun h => h.2.1 (by decide)),
   (exporter_handler_at_metrics_path ⟨fun p => p, "", ""⟩ (fun _ => none)
      (fun _ => (Except.error "unreadable" : Except String Unit)) (fun _ => "") []
      (initialMux Unit) flagDefaults rfl rfl (by decide)).2.2.1 "unreadable" rfl⟩

/-- C6: when the command line sets `-version`, `main` prints the version text
for "obj_exporter" and exits with status 0; `NewExporter` is not called, no
handler is registered and `ListenAndServe` is not called, whatever
`NewExporter` would have done with any configuration file. -/
theorem version_exits_before_exporter {ε : Type} (vt : VersionText)
    (foreign : String → Option ForeignFlag) (NewExporter : String → Except String ε)
    (env : String → String) (args : List String) (mux : ServeMux ε) (cl : FlagSet)
    (hp : Parse foreign flagDefaults args = Except.ok cl) (hv : cl.showVersion = true) :
    main vt foreign NewExporter env args mux =
      preamble foreign env ++ [Event.println (vt.print "obj_exporter"), Event.exit 0] ∧
    newExporterCalls (main vt foreign NewExporter env args mux) = [] ∧
    registrations (main vt foreign NewExporter env args mux) = [] ∧
    listenCalls (main vt foreign NewExporter env args mux) = [] := by
  rw [main_version vt foreign NewExporter env args mux cl hp hv]
  refine ⟨rfl, ?_, ?_, ?_⟩
  · rw [newExporterCalls_append, newExporterCalls_preamble]; rfl
  · rw [registrations_append, registrations_preamble]; rfl
  · rw [listenCalls_append, listenCalls_preamble]; rfl

/-- C6 at the command line `-version -config.file missing.yml`, with a
`NewExporter` that would fail. -/
theorem version_exits_before_exporter_witness :
    main ⟨fun p => p ++ ", version 0.5.3", "", ""⟩ (fun _ => none)
        (fun _ => (Except.error "unreadable" : Except String Unit)) (fun _ => "")
        ["-version", "-config.file", "missing.yml"] (initialMux Unit) =
      [Event.println "obj_exporter, version 0.5.3", Event.exit 0] ∧
    newExporterCalls (main ⟨fun p => p ++ ", version 0.5.3", "", ""⟩ (fun _ => none)
        (fun _ => (Except.error "unreadable" : Except String Unit)) (fun _ => "")
        ["-version", "-config.file", "missing.yml"] (initialMux Unit)) = [] ∧
    registrations (main ⟨fun p => p ++ ", version 0.5.3", "", ""⟩ (fun _ => none)
        (fun _ => (Except.error "unreadable" : Except String Unit)) (fun _ => "")
        ["-version", "-config.file", "missing.yml"] (initialMux Unit)) = [] ∧
    listenCalls (main ⟨fun p => p ++ ", version 0.5.3", "", ""⟩ (fun _ => none)
        (fun _ => (Except.error "unreadable" : Except String Unit)) (fun _ => "")
        ["-version", "-config.file", "missing.yml"] (initialMux Unit)) = [] :=
  version_exits_before_exporter ⟨fun p => p ++ ", version 0.5.3", "", ""⟩ (fun _ => none)
    (fun _ => (Except.error "unreadable" : Except String Unit)) (fun _ => "")
    ["-version", "-config.file", "missing.yml"] (initialMux Unit)
    { showVersion := true, listenAddress := ":9399", metricsPath := "/metrics",
      configFile := "missing.yml",
      actual := [("version", "true"), ("config.file", "missing.yml")] }
    rfl rfl

/-- C7, as stated, fails in two ways: when the connection is not acquired the
scrape emits the "up" sample with value 0 and no "duration" sample; and a
query whose metric is itself named "up" adds its samples to the one of the
engine. -/
theorem collect_without_connection_has_no_duration :
    (CollectionEngine.Collect ⟨fun _ => none, fun _ => ""⟩ Int.ofNat
        ⟨"T1", [⟨"select", "m", MetricType.gauge, ["labelA"], "value"⟩]⟩
        (Except.error Failure.ConnectFailed)
        (fun _ => Except.ok [[("labelA", Cell.str "x"), ("value", Cell.num 5)]])
        10 25).emitted =
      [{ name := "up", type := MetricType.gauge, labels := [("target", "T1")], value := 0,
         timestamp := 10 }] ∧
    countDuration (CollectionEngine.Collect ⟨fun _ => none, fun _ => ""⟩ Int.ofNat
        ⟨"T1", [⟨"select", "m", MetricType.gauge, ["labelA"], "value"⟩]⟩
        (Except.error Failure.ConnectFailed)
        (fun _ => Except.ok [[("labelA", Cell.str "x"), ("value", Cell.num 5)]])
        10 25).emitted = 0 ∧
    countUp (CollectionEngine.Collect ⟨fun _ => none, fun _ => ""⟩ Int.ofNat
        ⟨"T1", [⟨"select", "up", MetricType.gauge, ["labelA"], "value"⟩]⟩
        (Except.ok ())
        (fun _ => Except.ok [[("labelA", Cell.str "x"), ("value", Cell.num 5)]])
        10 25).emitted = 2 := by
  refine ⟨by rfl, by rfl, by rfl⟩

/-- C7, amended: when the connection is not acquired one Collect emits exactly
one "up" sample and no "duration" sample; when it is acquired, and no
configured query uses "up" or "duration" as its metric name, one Collect
emits exactly one "up" sample and exactly one "duration" sample, whatever each
query returns. -/
theorem collect_meta_metrics_once {ν : Type} (co : Coercion ν) (num : Nat → ν)
    (target : Target) (backend : QueryDefinition → Except Failure (List (RawRow ν)))
    (entry done : Nat) :
    (∀ f : Failure,
      countUp (CollectionEngine.Collect co num target (Except.error f) backend
        entry done).emitted = 1 ∧
      countDuration (CollectionEngine.Collect co num target (Except.error f) backend
        entry done).emitted = 0) ∧
    ((∀ qd ∈ target.queries, qd.metricName ≠ "up" ∧ qd.metricName ≠ "duration") →
      countUp (CollectionEngine.Collect co num target (Except.ok ()) backend
        entry done).emitted = 1 ∧
      countDuration (CollectionEngine.Collect co num target (Except.ok ()) backend
        entry done).emitted = 1) := by
  constructor
  · intro f
    exact ⟨rfl, rfl⟩
  · intro h
    have hu := query_samples_count co entry "up" backend target.queries (fun qd hq => (h qd hq).1)
    have hd := query_samples_count co entry "duration" backend target.queries
      (fun qd hq => (h qd hq).2)
    simp only [CollectionEngine.Collect, countUp, countDuration, List.countP_append, hu, hd]
    exact ⟨rfl, rfl⟩

/-- C7, amended, at the target `T1` with the query `m(labelA) = value`
returning one row: without the connection, and with it. -/
theorem collect_meta_metrics_once_witness :
    (countUp (CollectionEngine.Collect ⟨fun _ => none, fun _ => ""⟩ Int.ofNat
        ⟨"T1", [⟨"select", "m", MetricType.gauge, ["labelA"], "value"⟩]⟩
        (Except.error Failure.PoolExhausted)
        (fun _ => Except.ok [[("labelA", Cell.str "x"), ("value", Cell.num 5)]])
        10 25).emitted = 1 ∧
      countDuration (CollectionEngine.Collect ⟨fun _ => none, fun _ => ""⟩ Int.ofNat
        ⟨"T1", [⟨"select", "m", MetricType.gauge, ["labelA"], "value"⟩]⟩
        (Except.error Failure.PoolExhausted)
        (fun _ => Except.ok [[("labelA", Cell.str "x"), ("value", Cell.num 5)]])
        10 25).emitted = 0) ∧
    (countUp (CollectionEngine.Collect ⟨fun _ => none, fun _ => ""⟩ Int.ofNat
        ⟨"T1", [⟨"select", "m", MetricType.gauge, ["labelA"], "value"⟩]⟩
        (Except.ok ())
        (fun _ => Except.ok [[("labelA", Cell.str "x"), ("value", Cell.num 5)]])
        10 25).emitted = 1 ∧
      countDuration (CollectionEngine.Collect ⟨fun _ => none, fun _ => ""⟩ Int.ofNat
        ⟨"T1", [⟨"select", "m", MetricType.gauge, ["labelA"], "value"⟩]⟩
        (Except.ok ())
        (fun _ => Except.ok [[("labelA", Cell.str "x"), ("value", Cell.num 5)]])
        10 25).emitted = 1) :=
  ⟨(collect_meta_metrics_once ⟨fun _ => none, fun _ => ""⟩ Int.ofNat
      ⟨"T1", [⟨"select", "m", MetricType.gauge, ["labelA"], "value"⟩]⟩
      (fun _ => Except.ok [[("labelA", Cell.str "x"), ("value", Cell.num 5)]])
      10 25).1 Failure.PoolExhausted,
   (collect_meta_metrics_once ⟨fun _ => none, fun _ => ""⟩ Int.ofNat
      ⟨"T1", [⟨"select", "m", MetricType.gauge, ["labelA"], "value"⟩]⟩
      (fun _ => Except.ok [[("labelA", Cell.str "x"), ("value", Cell.num 5)]])
      10 25).2 (by decide)⟩

/-- C8: in every result set a row whose value column is null gives no sample
(its row result is the ValueCoercion failure), the query is not reported as
failed as soon as some row yields a sample, and a query in which every row has
a null value column is reported as failed and contributes no sample. -/
theorem null_value_rows {ν : Type} (co : Coercion ν) (ts : Nat) (qd : QueryDefinition)
    (rows : List (RawRow ν)) :
    (runQuery co ts qd (Except.ok rows)).perRow.length = rows.length ∧
    (∀ (i : Nat) (row : RawRow ν), rows[i]? = some row →
        column row qd.valueColumn = some Cell.null →
        (runQuery co ts qd (Except.ok rows)).perRow[i]? =
          some (Except.error Failure.ValueCoercion)) ∧
    ((∃ s, Except.ok s ∈ (runQuery co ts qd (Except.ok rows)).perRow) →
        (runQuery co ts qd (Except.ok rows)).failed = false) ∧
    ((∀ row ∈ rows, column row qd.valueColumn = some Cell.null) →
        (runQuery co ts qd (Except.ok rows)).failed = true ∧
        (runQuery co ts qd (Except.ok rows)).samples = []) := by
  refine ⟨mapRows_length co ts qd rows [], mapRows_null co ts qd rows [], ?_, ?_⟩
  · rintro ⟨s, hs⟩
    simp only [runQuery] at hs ⊢
    rw [Bool.eq_false_iff]
    intro hall
    rw [List.all_eq_true] at hall
    have := hall _ hs
    simp [rowFailed] at this
  · intro h
    simp only [runQuery, QueryOutcome.samples]
    rw [mapRows_all_null co ts qd rows [] h]
    constructor
    · simp [rowFailed]
    · simp [rowSample]

/-- C8 at two result sets of the query `m(labelA) = value`: a row with value 5
followed by a null row, and a null row alone. -/
theorem null_value_rows_witness :
    (runQuery ⟨fun s => if s = "5" then some (5 : Int) else none, fun _ => "n"⟩ 0
        ⟨"select", "m", MetricType.gauge, ["labelA"], "value"⟩
        (Except.ok [[("labelA", Cell.str "x"), ("value", Cell.str "5")],
                    [("labelA", Cell.str "y"), ("value", Cell.null)]])).perRow[1]? =
      some (Except.error Failure.ValueCoercion) ∧
    (runQuery ⟨fun s => if s = "5" then some (5 : Int) else none, fun _ => "n"⟩ 0
        ⟨"select", "m", MetricType.gauge, ["labelA"], "value"⟩
        (Except.ok [[("labelA", Cell.str "x"), ("value", Cell.str "5")],
                    [("labelA", Cell.str "y"), ("value", Cell.null)]])).failed = false ∧
    (runQuery ⟨fun s => if s = "5" then some (5 : Int) else none, fun _ => "n"⟩ 0
        ⟨"select", "m", MetricType.gauge, ["labelA"], "value"⟩
        (Except.ok [[("labelA", Cell.str "y"), ("value", Cell.null)]])).failed = true :=
  ⟨(null_value_rows ⟨fun s => if s = "5" then some (5 : Int) else none, fun _ => "n"⟩ 0
      ⟨"select", "m", MetricType.gauge, ["labelA"], "value"⟩
      [[("labelA", Cell.str "x"), ("value", Cell.str "5")],
       [("labelA", Cell.str "y"), ("value", Cell.null)]]).2.1 1
      [("labelA", Cell.str "y"), ("value", Cell.null)] rfl rfl,
   (null_value_rows ⟨fun s => if s = "5" then some (5 : Int) else none, fun _ => "n"⟩ 0
      ⟨"select", "m", MetricType.gauge, ["labelA"], "value"⟩
      [[("labelA", Cell.str "x"), ("value", Cell.str "5")],
       [("labelA", Cell.str "y"), ("value", Cell.null)]]).2.2.1
      ⟨{ name := "m", type := MetricType.gauge, labels := [("labelA", "x")], value := 5,
         timestamp := 0 }, List.Mem.head _⟩,
   ((null_value_rows ⟨fun s => if s = "5" then some (5 : Int) else none, fun _ => "n"⟩ 0
      ⟨"select", "m", MetricType.gauge, ["labelA"], "value"⟩
      [[("labelA", Cell.str "y"), ("value", Cell.null)]]).2.2.2
      (by intro row h; simp only [List.mem_singleton] at h; subst h; rfl)).1⟩

end ObjservExporter
